import Mathlib

/-!
Verification of the JSON manipulation engine of this repository
(path engine `json.path.ts`, compare/merge/validate engines and the
template generator) against its natural-language specification.

The TypeScript sources are shallowly embedded: JSON values become the
inductive `JVal` (JavaScript `undefined` is included as a constructor
because the engine stores and returns it), JS numbers become `Rat`,
JS objects become insertion-ordered association lists, and fallible
code returns `Except`.  Functions that assign through references
reachable from their arguments (only `jsonPath` and its wrappers do)
are embedded so that the post-call state of the caller's argument is
returned explicitly (the `target` field below); all other engine
functions contain assignments only into values freshly built by
`deepClone`, so their embeddings are pure functions.

Host primitives (the JS RegExp engine, `URL`, `Date`, `Math.random`,
`eval`) are abstracted into an explicit environment record where the
source calls them; no claim in this development depends on their
behaviour.  Maps over children are written as explicit mutual
recursions (`List.map f l` becomes a companion list function) so that
the nested inductive passes the termination checker; each companion is
pointwise identical to the mapped original.
-/

/-- JSON-like runtime values of the engine.  `undef` models JavaScript
`undefined`, which the path engine stores into arrays and objects and
which several functions return. -/
inductive JVal where
  | null
  | undef
  | bool (b : Bool)
  | num (n : Rat)
  | str (s : String)
  | arr (elems : List JVal)
  | obj (fields : List (String × JVal))
deriving Repr

mutual

/-- Boolean structural equality on `JVal` (used to build decidable
equality for the nested inductive). -/
def JVal.beq : JVal → JVal → Bool
  | .null, .null => true
  | .undef, .undef => true
  | .bool a, .bool b => a == b
  | .num a, .num b => a == b
  | .str a, .str b => a == b
  | .arr a, .arr b => JVal.beqList a b
  | .obj a, .obj b => JVal.beqFields a b
  | _, _ => false

def JVal.beqList : List JVal → List JVal → Bool
  | [], [] => true
  | x :: xs, y :: ys => JVal.beq x y && JVal.beqList xs ys
  | _, _ => false

def JVal.beqFields : List (String × JVal) → List (String × JVal) → Bool
  | [], [] => true
  | (k1, v1) :: xs, (k2, v2) :: ys => k1 == k2 && JVal.beq v1 v2 && JVal.beqFields xs ys
  | _, _ => false

end

mutual

theorem JVal.beq_iff : (a b : JVal) → (JVal.beq a b = true ↔ a = b)
  | .null, b => by cases b <;> simp [JVal.beq]
  | .undef, b => by cases b <;> simp [JVal.beq]
  | .bool _, b => by cases b <;> simp [JVal.beq]
  | .num _, b => by cases b <;> simp [JVal.beq]
  | .str _, b => by cases b <;> simp [JVal.beq]
  | .arr l, b => by
      cases b <;> simp [JVal.beq]
      exact JVal.beqList_iff l _
  | .obj l, b => by
      cases b <;> simp [JVal.beq]
      exact JVal.beqFields_iff l _

theorem JVal.beqList_iff : (l m : List JVal) → (JVal.beqList l m = true ↔ l = m)
  | [], [] => by simp [JVal.beqList]
  | [], _ :: _ => by simp [JVal.beqList]
  | _ :: _, [] => by simp [JVal.beqList]
  | x :: xs, y :: ys => by
      simp [JVal.beqList, JVal.beq_iff x y, JVal.beqList_iff xs ys]

theorem JVal.beqFields_iff : (l m : List (String × JVal)) → (JVal.beqFields l m = true ↔ l = m)
  | [], [] => by simp [JVal.beqFields]
  | [], _ :: _ => by simp [JVal.beqFields]
  | _ :: _, [] => by simp [JVal.beqFields]
  | (k1, v1) :: xs, (k2, v2) :: ys => by
      simp [JVal.beqFields, JVal.beq_iff v1 v2, JVal.beqFields_iff xs ys]
      try tauto

end

instance : DecidableEq JVal := fun a b =>
  decidable_of_iff (JVal.beq a b = true) (JVal.beq_iff a b)

/-- First-occurrence lookup on an object's field list (JS property read
on a plain object; objects have no duplicate keys). -/
def getField : List (String × JVal) → String → Option JVal
  | [], _ => none
  | (k', v) :: t, k => if k' = k then some v else getField t k

/-- JS property assignment `o[k] = v`: replaces the value of an
existing key in place, appends a new key at the end. -/
def setField : List (String × JVal) → String → JVal → List (String × JVal)
  | [], k, v => [(k, v)]
  | (k', v') :: t, k, v =>
      if k' = k then (k', v) :: t else (k', v') :: setField t k v

/-- JS `delete o[k]` on a plain object. -/
def removeField : List (String × JVal) → String → List (String × JVal)
  | [], _ => []
  | (k', v') :: t, k => if k' = k then t else (k', v') :: removeField t k

theorem getField_setField (l : List (String × JVal)) (k : String) (v : JVal) :
    getField (setField l k v) k = some v := by
  induction l with
  | nil => simp [setField, getField]
  | cons h t ih =>
      obtain ⟨k', v'⟩ := h
      by_cases hk : k' = k <;> simp [setField, getField, hk, ih]

theorem setField_getField_self (l : List (String × JVal)) (k : String) (v : JVal)
    (h : getField l k = some v) : setField l k v = l := by
  induction l with
  | nil => simp [getField] at h
  | cons hd t ih =>
      obtain ⟨k', v'⟩ := hd
      by_cases hk : k' = k
      · simp [getField, hk] at h
        simp [setField, hk, h]
      · simp [getField, hk] at h
        simp [setField, hk, ih h]

theorem list_set_getElem_self (l : List JVal) (i : Nat) (h : i < l.length) :
    l.set i l[i] = l := by
  induction l generalizing i with
  | nil => simp at h
  | cons x xs ih =>
      cases i with
      | zero => simp
      | succ n =>
          simp only [List.set_cons_succ, List.getElem_cons_succ]
          simp only [List.length_cons] at h
          rw [ih n (by omega)]

/-- `getValueType` / `getType` / `getTypeName`: the identical runtime
type classifier repeated in the merge, compare and validate sources
(`null`, `array`, `object`, otherwise `typeof`). -/
def getValueType : JVal → String
  | .null => "null"
  | .undef => "undefined"
  | .bool _ => "boolean"
  | .num _ => "number"
  | .str _ => "string"
  | .arr _ => "array"
  | .obj _ => "object"

/-- JS truthiness of a `JVal`. -/
def jsTruthy : JVal → Bool
  | .null => false
  | .undef => false
  | .bool b => b
  | .num n => n ≠ 0
  | .str s => s ≠ ""
  | .arr _ => true
  | .obj _ => true

/-- JS strict equality `===` restricted to the value model: value
equality on primitives; `false` on arrays/objects, which in the source
compare by reference and are distinct allocations in every use site of
this development (aliasing is not observable in a value model). -/
def jsStrictEq : JVal → JVal → Bool
  | .null, .null => true
  | .undef, .undef => true
  | .bool a, .bool b => a == b
  | .num a, .num b => a == b
  | .str a, .str b => a == b
  | _, _ => false

/-- Decimal-ish rendering of a JS number: integers print without a
fractional part; non-integral rationals print as `p/q` (the source
relies on `String(n)`; no claim depends on the exact digits of a
non-integral number). -/
def numToString (n : Rat) : String :=
  if n.den = 1 then toString n.num else toString n.num ++ "/" ++ toString n.den

mutual

/-- JS `String(value)` coercion.  Arrays stringify as their elements
joined with commas (`Array.prototype.toString`), `null`/`undefined`
elements becoming empty; objects stringify as `[object Object]`. -/
def jsToString : JVal → String
  | .null => "null"
  | .undef => "undefined"
  | .bool b => if b then "true" else "false"
  | .num n => numToString n
  | .str s => s
  | .arr elems => String.intercalate "," (jsToStringElems elems)
  | .obj _ => "[object Object]"

def jsToStringElems : List JVal → List String
  | [] => []
  | .null :: t => "" :: jsToStringElems t
  | .undef :: t => "" :: jsToStringElems t
  | v :: t => jsToString v :: jsToStringElems t

end

mutual

/-- `JSON.stringify` as used for structural dedup keys (`union` merge,
`uniqueItems`): `none` models the `undefined` result for `undefined`
input.  Exact escaping of exotic characters is not depended on by any
claim; the encoding serves only as a structural-equality key. -/
def jsonStringifyKey : JVal → Option String
  | .undef => none
  | .null => some "null"
  | .bool b => some (if b then "true" else "false")
  | .num n => some (numToString n)
  | .str s => some ("\"" ++ (s.replace "\\" "\\\\").replace "\"" "\\\"" ++ "\"")
  | .arr elems => some ("[" ++ String.intercalate "," (jsonStringifyElems elems) ++ "]")
  | .obj fields => some ("\x7b" ++ String.intercalate "," (jsonStringifyProps fields) ++ "\x7d")

def jsonStringifyElems : List JVal → List String
  | [] => []
  | e :: t => (jsonStringifyKey e).getD "null" :: jsonStringifyElems t

def jsonStringifyProps : List (String × JVal) → List String
  | [] => []
  | (k, v) :: t =>
      match jsonStringifyKey v with
      | none => jsonStringifyProps t
      | some s => ("\"" ++ k ++ "\":" ++ s) :: jsonStringifyProps t

end

mutual

/-- `deepClone` (json.merge.ts): recursively copies arrays and objects,
returns primitives (and `null`/`undefined`) as-is. -/
def deepClone : JVal → JVal
  | .null => .null
  | .undef => .undef
  | .bool b => .bool b
  | .num n => .num n
  | .str s => .str s
  | .arr elems => .arr (deepCloneList elems)
  | .obj fields => .obj (deepCloneFields fields)

def deepCloneList : List JVal → List JVal
  | [] => []
  | x :: xs => deepClone x :: deepCloneList xs

def deepCloneFields : List (String × JVal) → List (String × JVal)
  | [] => []
  | (k, v) :: t => (k, deepClone v) :: deepCloneFields t

end

mutual

/-- Cloning is structure-preserving: the engine's owned working copies
are structurally identical to the caller's inputs. -/
theorem deepClone_eq : (v : JVal) → deepClone v = v
  | .null => rfl
  | .undef => rfl
  | .bool _ => rfl
  | .num _ => rfl
  | .str _ => rfl
  | .arr elems => by simp [deepClone, deepCloneList_eq elems]
  | .obj fields => by simp [deepClone, deepCloneFields_eq fields]

theorem deepCloneList_eq : (l : List JVal) → deepCloneList l = l
  | [] => rfl
  | x :: xs => by simp [deepCloneList, deepClone_eq x, deepCloneList_eq xs]

theorem deepCloneFields_eq : (l : List (String × JVal)) → deepCloneFields l = l
  | [] => rfl
  | (k, v) :: t => by simp [deepCloneFields, deepClone_eq v, deepCloneFields_eq t]

end

/-! ## Path engine (`json.path.ts`) -/

/-- A parsed path segment: a string key or an integer array index. -/
inductive PathSeg where
  | key (s : String)
  | idx (n : Int)
deriving Repr, DecidableEq

/-- Errors raised by the path engine: `pathError` is the source's
`JsonPathError(message, path)` (`path` receives the expression);
`typeError` models the strict-mode `TypeError` raised by a property
assignment whose target is a primitive. -/
inductive PathThrown where
  | pathError (message : String) (path : String)
  | typeError (message : String)
deriving Repr, DecidableEq

/-- `JsonPathOptions` of the source (the unused `multiple` flag kept). -/
structure JsonPathOptions where
  create : Bool := false
  delete : Bool := false
  value : Option JVal := none
  multiple : Bool := false
deriving Repr, DecidableEq

/-- `JsonPathResult`: `target` is the post-call state of the caller's
`json` argument (the source returns the argument itself, mutated in
place; the embedding returns its final value). -/
structure JsonPathResult where
  value : JVal
  parent : Option JVal
  key : PathSeg
  «exists» : Bool
  target : JVal
deriving Repr, DecidableEq

/-- `getPathString`: joins segments with `.`, indices as `[i]`. -/
def getPathString (segments : List PathSeg) : String :=
  (String.intercalate "."
    (segments.map fun s =>
      match s with
      | .idx n => "[" ++ toString n ++ "]"
      | .key k => k)).replace ".[" "["

/-- The `^-?\d+$` test used on bracket contents. -/
def isIntegerLiteral (s : String) : Bool :=
  let body := if s.startsWith "-" then s.drop 1 else s
  body ≠ "" && body.all Char.isDigit

/-- Unescaping of quoted bracket segments: `\"` and `\'`. -/
def unescapeQuotes (s : String) : String :=
  (s.replace "\\\"" "\"").replace "\\'" "'"

/-- Classify one bracket body (json.path.ts lines 483–498): empty is an
error, all-digits (optionally signed) is an index, quoted content is
unescaped, anything else is a literal property name. -/
def parseBracketContent (content expression : String) : Except PathThrown PathSeg :=
  let c := content.trim
  if c = "" then .error (.pathError "Empty bracket expression" expression)
  else if isIntegerLiteral c then .ok (.idx ((c.toInt?).getD 0))
  else if (c.startsWith "\"" && c.endsWith "\"") || (c.startsWith "'" && c.endsWith "'") then
    .ok (.key (unescapeQuotes ((c.drop 1).dropRight 1)))
  else .ok (.key c)

/-- The character scanner of `parsePathExpression`, carrying the
previous character (for the `\`-escape check), the in-bracket and
in-quote states and the accumulator. -/
def parsePathGo (expression : String) : List Char → Option Char → Bool → Option Char →
    String → List PathSeg → Except PathThrown (List PathSeg)
  | [], _, inBrackets, _, current, segs =>
      if inBrackets then .error (.pathError "Unclosed bracket in path expression" expression)
      else if current ≠ "" then .ok (segs ++ [.key current])
      else .ok segs
  | c :: rest, prev, inBrackets, quoteChar, current, segs =>
      if inBrackets then
        match quoteChar with
        | some q =>
            if c = q ∧ prev ≠ some '\\' then
              parsePathGo expression rest (some c) true none (current.push c) segs
            else
              parsePathGo expression rest (some c) true (some q) (current.push c) segs
        | none =>
            if c = '"' ∨ c = '\'' then
              parsePathGo expression rest (some c) true (some c) (current.push c) segs
            else if c = ']' then
              match parseBracketContent current expression with
              | .error e => .error e
              | .ok seg => parsePathGo expression rest (some c) false none "" (segs ++ [seg])
            else
              parsePathGo expression rest (some c) true none (current.push c) segs
      else
        if c = '.' then
          if current ≠ "" then
            parsePathGo expression rest (some c) false none "" (segs ++ [.key current])
          else
            parsePathGo expression rest (some c) false none current segs
        else if c = '[' then
          if current ≠ "" then
            parsePathGo expression rest (some c) true none "" (segs ++ [.key current])
          else
            parsePathGo expression rest (some c) true none current segs
        else
          parsePathGo expression rest (some c) false none (current.push c) segs

/-- `parsePathExpression`: `''` parses to no segments. -/
def parsePathExpression (expression : String) : Except PathThrown (List PathSeg) :=
  if expression = "" then .ok []
  else parsePathGo expression expression.toList none false none "" []

/-- `createDefaultValue(currentSegment, nextSegment)`: a numeric next
segment (or the string `'0'`) asks for an array, another string for an
object; with no next segment the current segment's own type decides. -/
def createDefaultValue (currentSegment : PathSeg) (nextSegment : Option PathSeg) : JVal :=
  match nextSegment with
  | some (.idx _) => .arr []
  | some (.key s) => if s = "0" then .arr [] else .obj []
  | none =>
      match currentSegment with
      | .idx _ => .arr []
      | .key _ => .obj []

/-- JS `array.splice(start, 1)`: negative starts count from the end
(clamped at 0), starts past the end remove nothing. -/
def spliceRemoveOne (xs : List JVal) (start : Int) : List JVal :=
  let s : Nat := if start < 0 then (max ((xs.length : Int) + start) 0).toNat else start.toNat
  if s < xs.length then xs.eraseIdx s else xs

/-- Result of one traversal: the new value of the visited subtree plus
the result fields the source's loop maintains. -/
structure EvalOut where
  newCur : JVal
  value : JVal
  parent : Option JVal
  key : PathSeg
  «exists» : Bool
deriving Repr, DecidableEq

/-- Terminal operations on an array container (json.path.ts 155–199):
delete splices, assignment writes the element for a non-negative index
(a negative index sets a plain property, invisible to element reads),
otherwise a pure read. -/
def arrTerminal (opts : JsonPathOptions) (xs : List JVal) (n : Int) (child : JVal) : EvalOut :=
  if opts.delete then
    let xs' := spliceRemoveOne xs n
    { newCur := .arr xs', value := .undef, parent := some (.arr xs'), key := .idx n, «exists» := false }
  else
    match opts.value with
    | some v =>
        let xs' := if 0 ≤ n then xs.set n.toNat v else xs
        { newCur := .arr xs', value := v, parent := some (.arr xs'), key := .idx n, «exists» := true }
    | none =>
        { newCur := .arr xs, value := child, parent := some (.arr xs), key := .idx n, «exists» := true }

/-- Terminal operations on an object container. -/
def objTerminal (opts : JsonPathOptions) (fields : List (String × JVal)) (k : String)
    (child : JVal) : EvalOut :=
  if opts.delete then
    let f' := removeField fields k
    { newCur := .obj f', value := .undef, parent := some (.obj f'), key := .key k, «exists» := false }
  else
    match opts.value with
    | some v =>
        let f' := setField fields k v
        { newCur := .obj f', value := v, parent := some (.obj f'), key := .key k, «exists» := true }
    | none =>
        { newCur := .obj fields, value := child, parent := some (.obj fields), key := .key k, «exists» := true }

/-- One iteration of the traversal loop of `jsonPath` (json.path.ts
48–152), recursing over the remaining segments.  `done` is the prefix
already traversed (used in the missing-link error message), `expr` the
whole expression (carried into raised errors).  The returned `newCur`
is the final value of the visited subtree; enclosing levels write it
back into the slot they descended through, which is exactly the effect
of the source's in-place `parent[parentKey] = …` assignments. -/
def evalSegs (opts : JsonPathOptions) (expr : String) :
    List PathSeg → JVal → PathSeg → List PathSeg → Except PathThrown EvalOut
  | done, cur, seg, rest =>
    -- lines 52–73: missing-link handling before the dispatch
    let stepCur : Except PathThrown JVal :=
      if cur = .null ∨ cur = .undef then
        if opts.create then
          .ok (match rest with
            | [] => createDefaultValue seg none
            | r1 :: rr => createDefaultValue r1 rr.head?)
        else
          .error (.pathError ("Cannot traverse null/undefined at path: " ++ getPathString done) expr)
      else .ok cur
    match stepCur with
    | .error e => .error e
    | .ok cur₀ =>
      match cur₀, seg with
      | .arr xs, .idx n =>
          -- array branch (lines 80–112)
          let arrData : Except PathThrown (List JVal × JVal × Option Nat) :=
            if n < 0 then
              let adj : Int := (xs.length : Int) + n
              if adj < 0 ∨ (xs.length : Int) ≤ adj then
                if opts.create then
                  -- the extension loop is a no-op for a negative adjusted
                  -- index; the subsequent read is a property access: undefined
                  .ok (xs, .undef, none)
                else .error (.pathError ("Array index out of bounds: " ++ toString n) expr)
              else .ok (xs, xs.getD adj.toNat .undef, some adj.toNat)
            else
              if (xs.length : Int) ≤ n then
                if opts.create then
                  let xs' := xs ++ List.replicate (n.toNat + 1 - xs.length) .undef
                  .ok (xs', .undef, some n.toNat)
                else .error (.pathError ("Array index out of bounds: " ++ toString n) expr)
              else .ok (xs, xs.getD n.toNat .undef, some n.toNat)
          match arrData with
          | .error e => .error e
          | .ok (xs', child, posOpt) =>
              match rest with
              | [] => .ok (arrTerminal opts xs' n child)
              | s' :: rr =>
                  match evalSegs opts expr (done ++ [seg]) child s' rr with
                  | .error e => .error e
                  | .ok out =>
                      let newXs := match posOpt with
                        | some i => xs'.set i out.newCur
                        | none => xs'
                      .ok { out with newCur := .arr newXs }
      | .arr _, .key k => .error (.pathError ("Expected array index, got: " ++ k) expr)
      | .obj fields, .key k =>
          -- object branch (lines 114–133)
          let present := (getField fields k).isSome
          let objData : Sum EvalOut (List (String × JVal)) :=
            if ¬present ∧ opts.create then
              .inr (match rest with
                | [] => setField fields k .undef
                | r1 :: rr => setField fields k (createDefaultValue r1 rr.head?))
            else if ¬present ∧ ¬opts.create ∧ rest ≠ [] then
              -- non-terminal missing key without create: exists = false, break
              .inl { newCur := .obj fields, value := .undef, parent := some (.obj fields),
                     key := .key k, «exists» := false }
            else .inr fields
          match objData with
          | .inl out => .ok out
          | .inr f' =>
              let child := (getField f' k).getD .undef
              match rest with
              | [] => .ok (objTerminal opts f' k child)
              | s' :: rr =>
                  match evalSegs opts expr (done ++ [seg]) child s' rr with
                  | .error e => .error e
                  | .ok out => .ok { out with newCur := .obj (setField f' k out.newCur) }
      | .obj _, .idx n => .error (.pathError ("Expected object key, got: " ++ toString n) expr)
      | prim, _ =>
          -- primitive branch (lines 135–151)
          if opts.create ∧ rest = [] then
            -- `parent[parentKey] = defaultValue` with the primitive itself as
            -- `parent`: a strict-mode TypeError
            .error (.typeError "Cannot create property on primitive value")
          else
            .ok { newCur := prim, value := .undef, parent := some prim, key := seg,
                  «exists» := false }

/-- `jsonPath(json, expression, options)`.  The `target` field of the
result is the caller's argument after the call (the source mutates it
in place); an `Except.error` models a thrown error. -/
def jsonPath (json : JVal) (expression : String) (opts : JsonPathOptions := {}) :
    Except PathThrown JsonPathResult :=
  -- `options.value === undefined` disables assignment
  let opts := { opts with value := match opts.value with | some .undef => none | o => o }
  match parsePathExpression expression with
  | .error e => .error e
  | .ok [] => .ok { value := json, parent := none, key := .key "", «exists» := true, target := json }
  | .ok (s :: rest) =>
      match evalSegs opts expression [] json s rest with
      | .error e => .error e
      | .ok out =>
          if ¬out.«exists» ∧ opts.create ∧ opts.value.isSome then
            -- post-loop `parent[parentKey] = newValue` (lines 202–216): in
            -- create mode a failed walk always stopped at a primitive parent,
            -- so the strict-mode assignment raises TypeError
            .error (.typeError "Cannot create property on primitive value")
          else
            -- a missing-link replacement at the root is never attached
            -- (`parent === null` there), so `target` stays the caller's value
            let root := if json = .null ∨ json = .undef then json else out.newCur
            .ok { value := out.value, parent := out.parent, key := out.key,
                  «exists» := out.«exists», target := root }

/-- `getValue`: converts any raised error to `undefined`. -/
def getValue (json : JVal) (path : String) : JVal :=
  match jsonPath json path {} with
  | .ok r => r.value
  | .error _ => JVal.undef

/-- `setValue`: create-mode write, returns `result.target`. -/
def setValue (json : JVal) (path : String) (value : JVal) : Except PathThrown JVal :=
  (jsonPath json path { create := true, value := some value }).map (·.target)

/-- `deleteValue`: delete-mode call, returns the (mutated) argument. -/
def deleteValue (json : JVal) (path : String) : Except PathThrown JVal :=
  (jsonPath json path { delete := true }).map (·.target)

/-- `hasPath`: converts any raised error to `false`. -/
def hasPath (json : JVal) (path : String) : Bool :=
  match jsonPath json path {} with
  | .ok r => r.«exists»
  | .error _ => false

/-! ## Compare engine (`json.compare.ts`) -/

/-- A reported structural difference. -/
structure JsonDifference where
  path : String
  type : String
  valueA : JVal
  valueB : JVal
  detail : Option String := none
deriving Repr, DecidableEq

/-- `JsonCompareError` (only the message is ever consumed). -/
structure JsonCompareError where
  message : String
  path : String := ""
deriving Repr, DecidableEq

/-- `JsonCompareResult`. -/
structure JsonCompareResult where
  equal : Bool
  differences : List JsonDifference
  similarity : Rat
deriving Repr, DecidableEq

theorem sizeOf_getField {l : List (String × JVal)} {k : String} {v : JVal}
    (h : getField l k = some v) : sizeOf v < sizeOf l := by
  induction l with
  | nil => simp [getField] at h
  | cons hd t ih =>
      obtain ⟨k', v'⟩ := hd
      by_cases hk : k' = k
      · simp [getField, hk] at h
        subst h
        simp
        omega
      · simp [getField, hk] at h
        have := ih h
        simp
        omega

theorem sizeOf_mem_list {x : JVal} {l : List JVal} (h : x ∈ l) : sizeOf x < sizeOf l := by
  induction l with
  | nil => simp at h
  | cons hd t ih =>
      rcases List.mem_cons.mp h with h1 | h2
      · subst h1; simp; omega
      · have := ih h2
        simp
        omega

/-- First-occurrence deduplication (a JS `Set`'s iteration order). -/
def dedupFirstAux (seen : List String) : List String → List String
  | [] => []
  | x :: xs => if x ∈ seen then dedupFirstAux seen xs else x :: dedupFirstAux (x :: seen) xs

/-- `new Set([...Object.keys(a), ...Object.keys(b)])`, in insertion order. -/
def unionKeys (aKeys bKeys : List String) : List String :=
  dedupFirstAux [] (aKeys ++ bKeys)

mutual

/-- `deepCompare(a, b, path, differences)` (json.compare.ts 907–964):
returns the equality verdict together with the differences this call
appends, in push order. -/
def deepCompare (a b : JVal) (path : String) : Bool × List JsonDifference :=
  let typeA := getValueType a
  let typeB := getValueType b
  if typeA ≠ typeB then
    (false, [{ path := path, type := "type-mismatch", valueA := a, valueB := b,
               detail := some ("Type A: " ++ typeA ++ ", Type B: " ++ typeB) }])
  else if a = .null ∨ b = .null ∨ a = .undef ∨ b = .undef then
    -- equal types with a null/undefined side force both sides equal
    if a ≠ b then (false, [{ path := path, type := "value-mismatch", valueA := a, valueB := b }])
    else (true, [])
  else
    match a, b with
    | .arr as, .arr bs =>
        let lenDiff : List JsonDifference :=
          if as.length ≠ bs.length then
            [{ path := path, type := "length-mismatch", valueA := .num as.length,
               valueB := .num bs.length }]
          else []
        let ed := compareArraysGo as bs 0 path
        ((as.length = bs.length : Bool) && ed.1, lenDiff ++ ed.2)
    | .obj af, .obj bf =>
        compareObjKeys af bf (unionKeys (af.map (·.1)) (bf.map (·.1))) path
    | x, y =>
        if x ≠ y then (false, [{ path := path, type := "value-mismatch", valueA := x, valueB := y }])
        else (true, [])
termination_by (2 * (sizeOf a + sizeOf b), 0)
decreasing_by
  all_goals simp_wf
  all_goals (apply Prod.Lex.left; omega)

/-- The element loop of `compareArrays` (index `i` for paths): an index
past `a` reports `missing-in-a`, past `b` `missing-in-b`, otherwise the
elements are compared recursively. -/
def compareArraysGo (as bs : List JVal) (i : Nat) (path : String) :
    Bool × List JsonDifference :=
  match as, bs with
  | [], [] => (true, [])
  | [], b :: bt =>
      let ed := compareArraysGo [] bt (i + 1) path
      (false,
       { path := path ++ "[" ++ toString i ++ "]", type := "missing-in-a", valueA := .undef,
         valueB := b } :: ed.2)
  | a :: at_, [] =>
      let ed := compareArraysGo at_ [] (i + 1) path
      (false,
       { path := path ++ "[" ++ toString i ++ "]", type := "missing-in-b", valueA := a,
         valueB := .undef } :: ed.2)
  | a :: at_, b :: bt =>
      let ed1 := deepCompare a b (path ++ "[" ++ toString i ++ "]")
      let ed2 := compareArraysGo at_ bt (i + 1) path
      (ed1.1 && ed2.1, ed1.2 ++ ed2.2)
termination_by (2 * (sizeOf as + sizeOf bs) + 1, 0)
decreasing_by
  all_goals simp_wf
  all_goals (apply Prod.Lex.left; omega)

/-- The key loop of `compareObjects` over the union of both key sets:
side-only keys are reported as `missing-in-a`/`missing-in-b`. -/
def compareObjKeys (af bf : List (String × JVal)) (keys : List String) (path : String) :
    Bool × List JsonDifference :=
  match keys with
  | [] => (true, [])
  | k :: kt =>
      let propertyPath := if path ≠ "" then path ++ "." ++ k else k
      match hva : getField af k, hvb : getField bf k with
      | none, _ =>
          let ed := compareObjKeys af bf kt path
          (false,
           { path := propertyPath, type := "missing-in-a", valueA := .undef,
             valueB := (getField bf k).getD .undef } :: ed.2)
      | some va, none =>
          let ed := compareObjKeys af bf kt path
          (false,
           { path := propertyPath, type := "missing-in-b", valueA := va,
             valueB := .undef } :: ed.2)
      | some va, some vb =>
          let ed1 := deepCompare va vb propertyPath
          let ed2 := compareObjKeys af bf kt path
          (ed1.1 && ed2.1, ed1.2 ++ ed2.2)
termination_by (2 * (sizeOf af + sizeOf bf) + 1, keys.length)
decreasing_by
  all_goals simp_wf
  all_goals
    first
      | (apply Prod.Lex.right; omega)
      | (apply Prod.Lex.left
         have h1 := sizeOf_getField hva
         have h2 := sizeOf_getField hvb
         omega)

end

mutual

/-- `calculateSimilarity` (json.compare.ts 843–862): 1 for strictly
equal values, 0 for a null/undefined side or a type mismatch, the
recursive mean for arrays/objects, and exact equality for primitives. -/
def calculateSimilarity (a b : JVal) : Rat :=
  if jsStrictEq a b then 1
  else if a = .null ∨ b = .null ∨ a = .undef ∨ b = .undef then 0
  else if getValueType a ≠ getValueType b then 0
  else
    match a, b with
    | .arr as, .arr bs =>
        -- `calculateArraySimilarity`
        if as.length = 0 ∧ bs.length = 0 then 1
        else if as.length = 0 ∨ bs.length = 0 then 0
        else simArraysGo as bs / (max as.length bs.length : Nat)
    | .obj af, .obj bf =>
        -- `calculateObjectSimilarity`
        let allKeys := unionKeys (af.map (·.1)) (bf.map (·.1))
        if allKeys.length = 0 then 1
        else simObjKeys af bf allKeys / (allKeys.length : Nat)
    | x, y => if jsStrictEq x y then 1 else 0
termination_by (2 * (sizeOf a + sizeOf b), 0)
decreasing_by
  all_goals simp_wf
  all_goals (apply Prod.Lex.left; omega)

/-- The index loop of `calculateArraySimilarity`: indices past either
array contribute 0. -/
def simArraysGo (as bs : List JVal) : Rat :=
  match as, bs with
  | [], _ => 0
  | _, [] => 0
  | a :: at_, b :: bt => calculateSimilarity a b + simArraysGo at_ bt
termination_by (2 * (sizeOf as + sizeOf bs) + 1, 0)
decreasing_by
  all_goals simp_wf
  all_goals (apply Prod.Lex.left; omega)

/-- The key loop of `calculateObjectSimilarity`: keys missing (or
`undefined`-valued) on either side contribute 0. -/
def simObjKeys (af bf : List (String × JVal)) (keys : List String) : Rat :=
  match keys with
  | [] => 0
  | k :: kt =>
      match hva : getField af k, hvb : getField bf k with
      | some va, some vb =>
          (if va = .undef ∨ vb = .undef then 0 else calculateSimilarity va vb) + simObjKeys af bf kt
      | _, _ => 0 + simObjKeys af bf kt
termination_by (2 * (sizeOf af + sizeOf bf) + 1, keys.length)
decreasing_by
  all_goals simp_wf
  all_goals
    first
      | (apply Prod.Lex.right; omega)
      | (apply Prod.Lex.left
         have h1 := sizeOf_getField hva
         have h2 := sizeOf_getField hvb
         omega)

end

/-- `compareJson(a, b)`: equality verdict, ordered difference list and
similarity score. -/
def compareJson (a b : JVal) : JsonCompareResult :=
  let ed := deepCompare a b ""
  { equal := ed.1, differences := ed.2, similarity := calculateSimilarity a b }

/-- `deepEqual` of json.compare.ts: `deepCompare` with no difference
collection. -/
def deepEqualCmp (a b : JVal) : Bool :=
  (deepCompare a b "").1

/-- Splice-removal of the first deep-equal match from the candidate
pool (`bCopy.splice(j, 1)` in `compareArraysUnordered`). -/
def removeFirstMatch (x : JVal) : List JVal → Option (List JVal)
  | [] => none
  | y :: ys =>
      if deepEqualCmp x y then some ys
      else (removeFirstMatch x ys).map (y :: ·)

/-- The matching loop of `compareArraysUnordered`: each element of `a`
consumes its first deep-equal match in the remaining pool; unmatched
elements report `missing-element` at their index. -/
def unorderedGo (i : Nat) (as bCopy : List JVal) (matched : Nat) :
    List JsonDifference × Nat × List JVal :=
  match as with
  | [] => ([], matched, bCopy)
  | x :: rest =>
      match removeFirstMatch x bCopy with
      | some bc' => unorderedGo (i + 1) rest bc' (matched + 1)
      | none =>
          let out := unorderedGo (i + 1) rest bCopy matched
          ({ path := "[" ++ toString i ++ "]", type := "missing-element", valueA := x,
             valueB := .undef } :: out.1, out.2.1, out.2.2)

/-- `compareArraysUnordered(a, b)` (json.compare.ts 756–826): throws on
non-array arguments; a length mismatch short-circuits with a single
`length-mismatch` difference and similarity 0; otherwise greedy
matching, leftover pool elements reported as `extra-element`,
similarity `matches / a.length` (1 for an empty `a`). -/
def compareArraysUnordered (a b : JVal) : Except JsonCompareError JsonCompareResult :=
  match a, b with
  | .arr as, .arr bs =>
      if as.length ≠ bs.length then
        .ok { equal := false,
              differences := [{ path := "", type := "length-mismatch",
                                valueA := .num as.length, valueB := .num bs.length }],
              similarity := 0 }
      else
        let out := unorderedGo 0 as bs 0
        let extras : List JsonDifference := out.2.2.map fun e =>
          { path := "", type := "extra-element", valueA := .undef, valueB := e }
        let differences := out.1 ++ extras
        let similarity : Rat := if as.length > 0 then (out.2.1 : Rat) / (as.length : Rat) else 1
        .ok { equal := differences.isEmpty, differences := differences,
              similarity := similarity }
  | _, _ => .error { message := "Both arguments must be arrays" }

/-! ## Merge engine (`json.merge.ts`) -/

/-- `JsonMergeError(message, path, valueA, valueB)`; omitted value
parameters are `undefined`. -/
structure JsonMergeError where
  message : String
  path : String := ""
  valueA : JVal := .undef
  valueB : JVal := .undef
deriving Repr, DecidableEq

/-- `JsonMergeOptions`: absent fields model `undefined` (destructuring
defaults apply). -/
structure JsonMergeOptions where
  strategy : Option String := none
  arrayStrategy : Option String := none
  conflictStrategy : Option String := none
  customMerge : Option (String → JVal → JVal → Option JVal) := none
  maxDepth : Option Int := none

mutual

/-- The merge file's local `deepEqual` (json.merge.ts 606–633): strict
equality, then element-wise array comparison, then key-set comparison
for any two non-null `typeof 'object'` values (which lets an array be
compared to a plain object through its index keys), otherwise false. -/
def mergeDeepEqual (a b : JVal) : Bool :=
  if jsStrictEq a b then true
  else
    match a, b with
    | .arr as, .arr bs => (as.length = bs.length : Bool) && mergeDeepEqualList as bs
    | .obj af, .obj bf =>
        (af.length = bf.length : Bool) && mergeDeepEqualObjObj af bf
    | .arr as, .obj bf =>
        (as.length = bf.length : Bool) && mergeDeepEqualArrObj as 0 bf
    | .obj af, .arr bs =>
        (af.length = bs.length : Bool) && mergeDeepEqualObjArr af bs
    | _, _ => false

def mergeDeepEqualList : List JVal → List JVal → Bool
  | [], _ => true
  | _ :: _, [] => true
  | x :: xs, y :: ys => mergeDeepEqual x y && mergeDeepEqualList xs ys

/-- Key loop for two plain objects: every key of `a` must exist in `b`
with a deep-equal value. -/
def mergeDeepEqualObjObj : List (String × JVal) → List (String × JVal) → Bool
  | [], _ => true
  | (k, va) :: t, bf =>
      match getField bf k with
      | none => false
      | some vb => mergeDeepEqual va vb && mergeDeepEqualObjObj t bf

/-- Key loop when `a` is an array and `b` a plain object: the array's
own keys are its index strings. -/
def mergeDeepEqualArrObj : List JVal → Nat → List (String × JVal) → Bool
  | [], _, _ => true
  | va :: rest, i, bf =>
      match getField bf (toString i) with
      | none => false
      | some vb => mergeDeepEqual va vb && mergeDeepEqualArrObj rest (i + 1) bf

/-- Key loop when `a` is a plain object and `b` an array: `b[key]` is
an element for index-like keys and `undefined` otherwise. -/
def mergeDeepEqualObjArr : List (String × JVal) → List JVal → Bool
  | [], _ => true
  | (k, va) :: t, bs =>
      let vb := match k.toNat? with
        | some i => bs.getD i .undef
        | none => .undef
      mergeDeepEqual va vb && mergeDeepEqualObjArr t bs

end

/-- The `union` filter of `mergeArrays`: keeps the first occurrence of
each `JSON.stringify` key (a JS `Set` may also hold the `undefined`
key, hence `Option String`). -/
def unionFilter (seen : List (Option String)) : List JVal → List JVal
  | [] => []
  | x :: xs =>
      let key := jsonStringifyKey x
      if key ∈ seen then unionFilter seen xs
      else x :: unionFilter (key :: seen) xs

/-- JS spread `{ ...target, ...source }`. -/
def spreadFields (tf sf : List (String × JVal)) : List (String × JVal) :=
  sf.foldl (fun acc kv => setField acc kv.1 kv.2) tf

mutual

/-- `mergeArrays(a, b, strategy)` (json.merge.ts 67–122). -/
def mergeArrays (a b : List JVal) (strategy : String) : Except JsonMergeError (List JVal) :=
  if strategy = "concat" then .ok (a ++ b)
  else if strategy = "union" then .ok (unionFilter [] (a ++ b))
  else if strategy = "intersection" then
    .ok (a.filter fun itemA => b.any fun itemB => mergeDeepEqual itemA itemB)
  else if strategy = "replace" then .ok b
  else if strategy = "deep" then mergeArraysDeepGo a b
  else .error { message := "Unknown array merge strategy: " ++ strategy }
termination_by 2 * sizeOf b + 1
decreasing_by
  all_goals simp_wf
  all_goals omega

/-- The index loop of the `deep` array strategy: nonempty overhang is
cloned from whichever side remains; two non-array objects merge
recursively, anything else takes the (cloned) source element. -/
def mergeArraysDeepGo : List JVal → List JVal → Except JsonMergeError (List JVal)
  | [], bs => .ok (deepCloneList bs)
  | as, [] => .ok (deepCloneList as)
  | a :: at_, b :: bt =>
      match a, b with
      | .obj afields, .obj bfields =>
          match deepMergeTwo (.obj afields) (.obj bfields) {} with
          | .error e => .error e
          | .ok m =>
              match mergeArraysDeepGo at_ bt with
              | .error e => .error e
              | .ok rest => .ok (m :: rest)
      | x, _ =>
          match mergeArraysDeepGo at_ bt with
          | .error e => .error e
          | .ok rest =>
              let _ := x
              .ok (deepClone b :: rest)
termination_by a b => 2 * sizeOf b
decreasing_by
  all_goals simp_wf
  all_goals (try simp)
  all_goals omega

/-- `deepMergeTwo(target, source, options)` (json.merge.ts 336–385):
null/undefined handling, source-wins on type mismatch, array strategy
for arrays, per-key recursion for objects, cloned source otherwise. -/
def deepMergeTwo (target source : JVal) (options : JsonMergeOptions) :
    Except JsonMergeError JVal :=
  if source = .null ∨ source = .undef then .ok target
  else if target = .null ∨ target = .undef then .ok (deepClone source)
  else if getValueType target ≠ getValueType source then .ok (deepClone source)
  else
    match target, source with
    | .arr as, .arr bs =>
        let arrayStrategy := match options.arrayStrategy with
          | some s => if s = "" then "concat" else s
          | none => "concat"
        match mergeArrays as bs arrayStrategy with
        | .error e => .error e
        | .ok m => .ok (.arr m)
    | .obj tf, .obj sf => mergeTwoFields (deepCloneFields tf) (deepCloneFields sf) options
    | _, _ => .ok (deepClone source)
termination_by 2 * sizeOf source
decreasing_by
  all_goals simp_wf
  all_goals (try rw [deepCloneFields_eq])
  all_goals (try simp)
  all_goals omega

/-- The per-key loop of `deepMergeTwo`'s object case over the cloned
source entries: shared keys recurse, new keys are inserted. -/
def mergeTwoFields (result : List (String × JVal)) (srcFields : List (String × JVal))
    (options : JsonMergeOptions) : Except JsonMergeError JVal :=
  match srcFields with
  | [] => .ok (.obj result)
  | (k, sv) :: t =>
      match getField result k with
      | some tv =>
          match deepMergeTwo tv sv options with
          | .error e => .error e
          | .ok m => mergeTwoFields (setField result k m) t options
      | none => mergeTwoFields (setField result k sv) t options
termination_by 2 * sizeOf srcFields
decreasing_by
  all_goals simp_wf
  all_goals (try simp)
  all_goals omega

end

/-- The conflict-strategy dispatch of `deepMergeRecursive` on a type
mismatch (json.merge.ts 424–444). -/
def conflictOnTypeMismatch (conflictStrategy path : String) (target source : JVal) :
    Except JsonMergeError JVal :=
  if conflictStrategy = "target" then .ok (deepClone target)
  else if conflictStrategy = "source" then .ok (deepClone source)
  else if conflictStrategy = "throw" then
    .error { message := "Type mismatch at path \"" ++ path ++ "\": " ++ getValueType target ++
               " vs " ++ getValueType source,
             path := path, valueA := target, valueB := source }
  else if conflictStrategy = "priority" then
    .ok (if source ≠ .null ∧ source ≠ .undef then deepClone source else deepClone target)
  else .ok (deepClone source)

/-- The conflict-strategy dispatch of `deepMergeRecursive` on two
differing equal-type primitives (json.merge.ts 488–506). -/
def conflictOnPrimitive (conflictStrategy path : String) (t s : JVal) :
    Except JsonMergeError JVal :=
  if conflictStrategy = "target" then .ok t
  else if conflictStrategy = "source" then .ok s
  else if conflictStrategy = "throw" then
    .error { message := "Value conflict at path \"" ++ path ++ "\": " ++
               jsToString t ++ " vs " ++ jsToString s,
             path := path, valueA := t, valueB := s }
  else if conflictStrategy = "priority" then
    .ok (if s ≠ .null ∧ s ≠ .undef then s else t)
  else .ok s

mutual

/-- `deepMergeRecursive` (json.merge.ts 387–510): depth guard, null
handling, `customMerge` short-circuit, conflict-strategy dispatch on
type mismatch, array strategy for arrays, per-key recursion for deep
object merges, and conflict-strategy dispatch on differing primitives. -/
def deepMergeRecursive (target source : JVal) (strategy : String) (arrayStrategy : String)
    (conflictStrategy : String) (customMerge : Option (String → JVal → JVal → Option JVal))
    (path : String) (maxDepth : Int) (depth : Int) : Except JsonMergeError JVal :=
  if h : maxDepth < depth then
    .error { message := "Maximum merge depth exceeded: " ++ toString maxDepth, path := path }
  else if source = .null ∨ source = .undef then .ok target
  else if target = .null ∨ target = .undef then .ok (deepClone source)
  else
    let customResult := match customMerge with
      | some f => f path target source
      | none => none
    match customResult with
    | some r => .ok r
    | none =>
      if getValueType target ≠ getValueType source then
        conflictOnTypeMismatch conflictStrategy path target source
      else
        match target, source with
        | .arr as, .arr bs =>
            match mergeArrays as bs arrayStrategy with
            | .error e => .error e
            | .ok m => .ok (.arr m)
        | .obj tf, .obj sf =>
            if strategy = "shallow" then .ok (.obj (spreadFields tf sf))
            else
              mergeFieldsRec (deepCloneFields tf) (deepCloneFields sf) strategy arrayStrategy
                conflictStrategy customMerge path maxDepth depth
        | t, s => if t ≠ s then conflictOnPrimitive conflictStrategy path t s else .ok t
termination_by (((maxDepth + 1 - depth).toNat : Nat), 0, 0)
decreasing_by
  all_goals simp_wf
  all_goals (apply Prod.Lex.left; omega)

/-- The per-key loop of the deep object merge, recursing one level
deeper per shared key; new keys are inserted unconditionally. -/
def mergeFieldsRec (result : List (String × JVal)) (srcFields : List (String × JVal))
    (strategy : String) (arrayStrategy : String) (conflictStrategy : String)
    (customMerge : Option (String → JVal → JVal → Option JVal)) (path : String)
    (maxDepth : Int) (depth : Int) : Except JsonMergeError JVal :=
  match srcFields with
  | [] => .ok (.obj result)
  | (k, sv) :: t =>
      let newPath := if path ≠ "" then path ++ "." ++ k else k
      match getField result k with
      | some tv =>
          match deepMergeRecursive tv sv strategy arrayStrategy conflictStrategy customMerge
              newPath maxDepth (depth + 1) with
          | .error e => .error e
          | .ok m =>
              mergeFieldsRec (setField result k m) t strategy arrayStrategy conflictStrategy
                customMerge path maxDepth depth
      | none =>
          mergeFieldsRec (setField result k sv) t strategy arrayStrategy conflictStrategy
            customMerge path maxDepth depth
termination_by (((maxDepth - depth).toNat : Nat), 1, srcFields.length)
decreasing_by
  all_goals simp_wf
  all_goals
    first
      | (apply Prod.Lex.right; apply Prod.Lex.left; omega)
      | (apply Prod.Lex.right; apply Prod.Lex.right; simp)

end

/-- `deepMerge(target, source, options)` (json.merge.ts 38–62):
destructures option defaults and starts `deepMergeRecursive` on deep
clones of both inputs at path `''`, depth 0. -/
def deepMerge (target source : JVal) (options : JsonMergeOptions := {}) :
    Except JsonMergeError JVal :=
  deepMergeRecursive (deepClone target) (deepClone source)
    (options.strategy.getD "deep") (options.arrayStrategy.getD "concat")
    (options.conflictStrategy.getD "source") options.customMerge "" (options.maxDepth.getD 100) 0

/-- The accumulation loop of `mergeWithPriority`. -/
def mergePriorityFold (result : JVal) : List JVal → Except JsonMergeError JVal
  | [] => .ok result
  | o :: rest =>
      match deepMergeRecursive result o "deep" "concat" "priority" none "" 100 0 with
      | .error e => .error e
      | .ok r => mergePriorityFold r rest

/-- `mergeWithPriority(...objects)` (json.merge.ts 127–150): clones the
first object and folds the rest through `deepMergeRecursive` with the
`priority` conflict strategy. -/
def mergeWithPriority : List JVal → Except JsonMergeError JVal
  | [] => .ok (.obj [])
  | [o] => .ok (deepClone o)
  | o :: rest => mergePriorityFold (deepClone o) rest

/-! ## Validate engine (`json.validator.ts`) -/

/-- `schema.type`: a single type name or an array of them. -/
inductive SchemaType where
  | one (s : String)
  | many (l : List String)
deriving Repr, DecidableEq

/-- The heterogeneous `expected` payload of a validation error. -/
inductive ExpectedV where
  | s (v : String)
  | v (j : JVal)
  | list (l : List String)
  | vlist (l : List JVal)
deriving Repr, DecidableEq

/-- `ValidationError`: omitted optional members are `undefined`. -/
structure ValidationError where
  path : String
  message : String
  value : JVal := .undef
  expected : Option ExpectedV := none
deriving Repr, DecidableEq

/-- `ValidationResult`. -/
structure ValidationResult where
  valid : Bool
  errors : List ValidationError
deriving Repr, DecidableEq

/-- The schema vocabulary consumed by the validator (all members
optional, absence modelling `undefined`). -/
structure JsonSchemaF (α : Type) where
  type : Option SchemaType := none
  required : Option (List String) := none
  properties : Option (List (String × α)) := none
  items : Option α := none
  minItems : Option Rat := none
  maxItems : Option Rat := none
  uniqueItems : Option Bool := none
  minProperties : Option Rat := none
  maxProperties : Option Rat := none
  additionalProperties : Option Bool := none
  enum : Option (List JVal) := none
  const : Option JVal := none
  format : Option String := none
  pattern : Option String := none
  minimum : Option Rat := none
  maximum : Option Rat := none
  exclusiveMinimum : Option Rat := none
  exclusiveMaximum : Option Rat := none
  multipleOf : Option Rat := none
  minLength : Option Rat := none
  maxLength : Option Rat := none

/-- Recursive schemas (`properties`, `items`). -/
inductive JsonSchema where
  | mk (core : JsonSchemaF JsonSchema)

/-- Projection to the field record. -/
def JsonSchema.core : JsonSchema → JsonSchemaF JsonSchema
  | .mk c => c

/-- Host primitives the validator calls: the JS RegExp engine (for
`schema.pattern`), `new URL` and `Date.parse`. -/
structure ValidateEnv where
  regexTest : String → String → Bool := fun _ _ => false
  urlOk : String → Bool := fun _ => false
  dateParseOk : String → Bool := fun _ => false

/-- A character admissible in the email pattern's `[^\s@]` classes. -/
def isEmailChar (c : Char) : Bool := ¬ c.isWhitespace ∧ c ≠ '@'

/-- `/^[^\s@]+@[^\s@]+\.[^\s@]+$/`: exactly one `@`, non-empty local
part, and a `.` in the domain with at least one admissible character on
each side. -/
def emailOk (s : String) : Bool :=
  match s.splitOn "@" with
  | [l, r] =>
      l ≠ "" ∧ l.toList.all isEmailChar ∧ r.toList.all isEmailChar ∧
        ((List.range r.length).any fun i => 1 ≤ i ∧ i + 1 < r.length ∧ r.toList.getD i ' ' = '.')
  | _ => false

/-- Case-insensitive hexadecimal digit. -/
def isHexChar (c : Char) : Bool := c.toLower ∈ "0123456789abcdef".toList

/-- The fixed uuid pattern (version digit `1-5`, variant `8|9|a|b`),
case-insensitive. -/
def uuidOk (s : String) : Bool :=
  match s.splitOn "-" with
  | [a, b, c, d, e] =>
      a.length = 8 ∧ b.length = 4 ∧ c.length = 4 ∧ d.length = 4 ∧ e.length = 12 ∧
        (a ++ b ++ c ++ d ++ e).toList.all isHexChar ∧
        (c.toList.getD 0 ' ') ∈ "12345".toList ∧
        (d.toList.getD 0 ' ').toLower ∈ "89ab".toList
  | _ => false

/-- `/^\d{4}-\d{2}-\d{2}$/`. -/
def dateRegexOk (s : String) : Bool :=
  match s.splitOn "-" with
  | [y, m, d] =>
      y.length = 4 ∧ m.length = 2 ∧ d.length = 2 ∧
        (y ++ m ++ d).toList.all Char.isDigit
  | _ => false

/-- `validateFormat(value, format)` (json.validator.ts 1956–1976);
`url` and the `Date.parse` checks come from the host environment,
unknown formats pass. -/
def validateFormat (env : ValidateEnv) (value format : String) : Bool :=
  if format = "email" then emailOk value
  else if format = "url" then env.urlOk value
  else if format = "date" then dateRegexOk value && env.dateParseOk value
  else if format = "date-time" then env.dateParseOk value
  else if format = "uuid" then uuidOk value
  else true

/-- Truncation toward zero, as JS `%` requires. -/
def ratTrunc (q : Rat) : Int := if 0 ≤ q then q.floor else -((-q).floor)

/-- JS remainder `a % b` for finite rationals. -/
def jsMod (a b : Rat) : Rat := a - b * (ratTrunc (a / b) : Rat)

/-- `value % m !== 0`, with `m = 0` yielding `NaN !== 0`, i.e. true. -/
def jsModNeZero (a m : Rat) : Bool := if m = 0 then true else jsMod a m ≠ 0

/-- `createError(path, message, value, expected)`; `path || ''` is the
identity on the (always string) paths this file passes. -/
def createError (path message : String) (value : JVal := .undef)
    (expected : Option ExpectedV := none) : ValidationError :=
  { path := path, message := message, value := value, expected := expected }

/-- The `uniqueItems` scan: a `JSON.stringify`-keyed seen-set; the key
is added after the check, so every later duplicate reports. -/
def uniqueItemsGo (basePath : String) (i : Nat) (seen : List (Option String)) :
    List JVal → List ValidationError
  | [] => []
  | x :: rest =>
      let key := jsonStringifyKey x
      let tail := uniqueItemsGo basePath (i + 1) (key :: seen) rest
      if key ∈ seen then
        createError (basePath ++ "[" ++ toString i ++ "]") "Duplicate item found" x
          (some (.s "unique value")) :: tail
      else tail

/-- `validatePrimitiveAgainstSchema` (json.validator.ts 1818–1954):
enum membership, const equality, format and pattern checks for strings,
numeric bounds and `multipleOf`, string length bounds — including the
source's duplicated trailing `minLength` block, which reports the same
error a second time. -/
def validatePrimitiveAgainstSchema (env : ValidateEnv) (value : JVal) (schema : JsonSchema)
    (basePath : String) : List ValidationError :=
  let core := schema.core
  let enumErrs := match core.enum with
    | some es =>
        if ¬ es.any (fun e => jsStrictEq e value) then
          [createError basePath
            ("Value \"" ++ jsToString value ++ "\" is not in allowed values: " ++
              String.intercalate ", " (jsToStringElems es)) value (some (.vlist es))]
        else []
    | none => []
  let constErrs := match core.const with
    | some c =>
        if ¬ jsStrictEq value c then
          [createError basePath
            ("Value \"" ++ jsToString value ++ "\" does not match constant \"" ++
              jsToString c ++ "\"") value (some (.v c))]
        else []
    | none => []
  let formatErrs := match core.format, value with
    | some fmt, .str s =>
        if ¬ validateFormat env s fmt then
          [createError basePath
            ("Value \"" ++ s ++ "\" is not a valid " ++ fmt) value (some (.s ("valid " ++ fmt)))]
        else []
    | _, _ => []
  let patternErrs := match core.pattern, value with
    | some p, .str s =>
        if ¬ env.regexTest p s then
          [createError basePath
            ("Value \"" ++ s ++ "\" does not match pattern " ++ p) value
            (some (.s ("matches " ++ p)))]
        else []
    | _, _ => []
  let numErrs := match value with
    | .num n =>
        (match core.minimum with
          | some m => if n < m then
              [createError basePath
                ("Value " ++ numToString n ++ " is less than minimum " ++ numToString m)
                value (some (.s (">= " ++ numToString m)))] else []
          | none => []) ++
        (match core.exclusiveMinimum with
          | some m => if n ≤ m then
              [createError basePath
                ("Value " ++ numToString n ++ " is not greater than " ++ numToString m)
                value (some (.s ("> " ++ numToString m)))] else []
          | none => []) ++
        (match core.maximum with
          | some m => if n > m then
              [createError basePath
                ("Value " ++ numToString n ++ " exceeds maximum " ++ numToString m)
                value (some (.s ("<= " ++ numToString m)))] else []
          | none => []) ++
        (match core.exclusiveMaximum with
          | some m => if n ≥ m then
              [createError basePath
                ("Value " ++ numToString n ++ " is not less than " ++ numToString m)
                value (some (.s ("< " ++ numToString m)))] else []
          | none => []) ++
        (match core.multipleOf with
          | some m => if jsModNeZero n m then
              [createError basePath
                ("Value " ++ numToString n ++ " is not a multiple of " ++ numToString m)
                value (some (.s ("multiple of " ++ numToString m)))] else []
          | none => [])
    | _ => []
  let strMinErr := match core.minLength, value with
    | some m, .str s =>
        if (s.length : Rat) < m then
          [createError basePath
            ("String length " ++ toString s.length ++ " is less than minimum " ++ numToString m)
            (.num s.length) (some (.s (">= " ++ numToString m)))]
        else []
    | _, _ => []
  let strMaxErr := match core.maxLength, value with
    | some m, .str s =>
        if (s.length : Rat) > m then
          [createError basePath
            ("String length " ++ toString s.length ++ " exceeds maximum " ++ numToString m)
            (.num s.length) (some (.s ("<= " ++ numToString m)))]
        else []
    | _, _ => []
  enumErrs ++ constErrs ++ formatErrs ++ patternErrs ++ numErrs ++ strMinErr ++ strMaxErr ++
    strMinErr

/-- The truthiness and normalisation of `schema.type`
(`Array.isArray(schema.type) ? schema.type : [schema.type]`; an empty
string is falsy and skips the check). -/
def schemaTypeGate (schema : JsonSchema) : Option (List String) :=
  match schema.core.type with
  | none => none
  | some (.one s) => if s = "" then none else some [s]
  | some (.many l) => some l

/-- The type-check block of `validateAgainstSchema`: one error when a
truthy `schema.type` does not include the actual runtime type. -/
def schemaTypeErrs (json : JVal) (schema : JsonSchema) (basePath : String) :
    List ValidationError :=
  match schemaTypeGate schema with
  | some expectedTypes =>
      let actualType := getValueType json
      if ¬ expectedTypes.contains actualType then
        [createError basePath
          ("Type \"" ++ actualType ++ "\" does not match expected type(s): " ++
            String.intercalate ", " expectedTypes) json (some (.list expectedTypes))]
      else []
  | none => []

mutual

/-- `validateAgainstSchema(json, schema, basePath)` (json.validator.ts
1659–1692): a truthy `schema.type` is checked first and a mismatch
reports exactly one error and suppresses every deeper check; otherwise
dispatch on the actual runtime type. -/
def validateAgainstSchema (env : ValidateEnv) (json : JVal) (schema : JsonSchema)
    (basePath : String) : List ValidationError :=
  let typeErrs := schemaTypeErrs json schema basePath
  if typeErrs ≠ [] then typeErrs
  else
    match json with
    | .arr xs => validateArrayAgainstSchema env xs schema basePath
    | .obj f => validateObjectAgainstSchema env f schema basePath
    | v => validatePrimitiveAgainstSchema env v schema basePath
termination_by (2 * sizeOf json, 2, 0)
decreasing_by
  all_goals simp_wf
  all_goals
    first
      | (apply Prod.Lex.left; omega)
      | (apply Prod.Lex.left; simp; omega)
      | (apply Prod.Lex.right; apply Prod.Lex.left; omega)

/-- `validateArrayAgainstSchema` (json.validator.ts 1694–1747):
`minItems`/`maxItems`, `uniqueItems`, then per-element validation
against `items`. -/
def validateArrayAgainstSchema (env : ValidateEnv) (xs : List JVal) (schema : JsonSchema)
    (basePath : String) : List ValidationError :=
  let core := schema.core
  let minErrs := match core.minItems with
    | some m =>
        if (xs.length : Rat) < m then
          [createError basePath
            ("Array has " ++ toString xs.length ++ " items, minimum required is " ++
              numToString m) (.num xs.length) (some (.s (">= " ++ numToString m)))]
        else []
    | none => []
  let maxErrs := match core.maxItems with
    | some m =>
        if (xs.length : Rat) > m then
          [createError basePath
            ("Array has " ++ toString xs.length ++ " items, maximum allowed is " ++
              numToString m) (.num xs.length) (some (.s ("<= " ++ numToString m)))]
        else []
    | none => []
  let uniqueErrs :=
    if core.uniqueItems = some true then uniqueItemsGo basePath 0 [] xs else []
  let itemErrs := match core.items with
    | some itemSchema => validateItemsGo env 0 xs itemSchema basePath
    | none => []
  minErrs ++ maxErrs ++ uniqueErrs ++ itemErrs
termination_by (2 * sizeOf xs + 1, 1, 0)
decreasing_by
  all_goals simp_wf
  all_goals (apply Prod.Lex.left; omega)

/-- The per-element loop of the `items` check. -/
def validateItemsGo (env : ValidateEnv) (i : Nat) (xs : List JVal) (itemSchema : JsonSchema)
    (basePath : String) : List ValidationError :=
  match xs with
  | [] => []
  | x :: rest =>
      validateAgainstSchema env x itemSchema (basePath ++ "[" ++ toString i ++ "]") ++
        validateItemsGo env (i + 1) rest itemSchema basePath
termination_by (2 * sizeOf xs, 0, 0)
decreasing_by
  all_goals simp_wf
  all_goals (apply Prod.Lex.left; omega)

/-- `validateObjectAgainstSchema` (json.validator.ts 1749–1816):
required-property presence (paths joined with an unconditional `.`),
per-declared-property recursion, `additionalProperties === false`
flagging, then `minProperties`/`maxProperties`. -/
def validateObjectAgainstSchema (env : ValidateEnv) (f : List (String × JVal))
    (schema : JsonSchema) (basePath : String) : List ValidationError :=
  let core := schema.core
  let requiredErrs := match core.required with
    | some props =>
        props.filterMap fun prop =>
          if getField f prop = none then
            some (createError (basePath ++ "." ++ prop)
              ("Required property \"" ++ prop ++ "\" is missing") .undef (some (.s "present")))
          else none
    | none => []
  let propErrs := match core.properties with
    | some props => validatePropsGo env f props basePath
    | none => []
  let addlErrs :=
    if core.additionalProperties = some false then
      let allowedProps : List String := match core.properties with
        | some props => props.map fun kv => kv.1
        | none => []
      f.filterMap fun kv =>
        if kv.1 ∈ allowedProps then none
        else some (createError (basePath ++ "." ++ kv.1)
          ("Additional property \"" ++ kv.1 ++ "\" is not allowed") kv.2
          (some (.s "undefined")))
    else []
  let propCount := f.length
  let minErrs := match core.minProperties with
    | some m =>
        if (propCount : Rat) < m then
          [createError basePath
            ("Object has " ++ toString propCount ++ " properties, minimum required is " ++
              numToString m) (.num propCount) (some (.s (">= " ++ numToString m)))]
        else []
    | none => []
  let maxErrs := match core.maxProperties with
    | some m =>
        if (propCount : Rat) > m then
          [createError basePath
            ("Object has " ++ toString propCount ++ " properties, maximum allowed is " ++
              numToString m) (.num propCount) (some (.s ("<= " ++ numToString m)))]
        else []
    | none => []
  requiredErrs ++ propErrs ++ addlErrs ++ minErrs ++ maxErrs
termination_by (2 * sizeOf f + 1, 1, 0)
decreasing_by
  all_goals simp_wf
  all_goals (apply Prod.Lex.right; apply Prod.Lex.left; omega)

/-- The per-declared-property loop of the `properties` check (only
present keys recurse). -/
def validatePropsGo (env : ValidateEnv) (f : List (String × JVal))
    (props : List (String × JsonSchema)) (basePath : String) : List ValidationError :=
  match props with
  | [] => []
  | (prop, propSchema) :: rest =>
      (match hv : getField f prop with
        | some v => validateAgainstSchema env v propSchema (basePath ++ "." ++ prop)
        | none => []) ++
        validatePropsGo env f rest basePath
termination_by (2 * sizeOf f + 1, 0, props.length)
decreasing_by
  all_goals simp_wf
  all_goals
    first
      | (apply Prod.Lex.right; apply Prod.Lex.right; omega)
      | (have h1 := sizeOf_getField hv
         apply Prod.Lex.left
         omega)

end

/-- `validateSchema(json, schema)`: the accumulated error list with the
`valid` flag. -/
def validateSchema (env : ValidateEnv) (json : JVal) (schema : JsonSchema) : ValidationResult :=
  let errors := validateAgainstSchema env json schema ""
  { valid := errors.isEmpty, errors := errors }

/-! ## Generate engine (`json.generator.ts`) -/

/-- `JsonGeneratorError(message, template, data)`; omitted parameters
are `undefined`. -/
structure JsonGeneratorError where
  message : String
  template : Option JVal := none
  data : Option JVal := none
deriving Repr, DecidableEq

/-- Host primitives of the generate engine: `eval` of string switch
conditions, `Date`-based date generation, `Math.random`-based value
generation and `Math.pow`. -/
structure GenEnv where
  evalCondStr : String → JVal → Bool := fun _ _ => false
  genDate : JVal → String := fun _ => ""
  genRandom : JVal → JVal := fun _ => .null
  hostPow : Rat → Rat → Rat := fun _ _ => 0

/-- The option subset threaded through template processing. -/
structure GenProcOptions where
  strict : Bool
  defaultValue : JVal
deriving Repr, DecidableEq

/-- Property read `o[k]` yielding `undefined` for a missing key. -/
def jsGetFieldD (f : List (String × JVal)) (k : String) : JVal :=
  (getField f k).getD .undef

theorem jsGetFieldD_le (f : List (String × JVal)) (k : String) :
    sizeOf (jsGetFieldD f k) ≤ sizeOf f := by
  unfold jsGetFieldD
  match hv : getField f k with
  | some v =>
      have := sizeOf_getField hv
      simpa using Nat.le_of_lt this
  | none =>
      simp only [Option.getD]
      induction f with
      | nil => simp
      | cons hd t ih => simp; omega

/-- `deepCloneTemplate` (json.generator.ts 276–294): the same
recursion as `deepClone`. -/
def deepCloneTemplate (template : JVal) : JVal := deepClone template

/-- Leading-prefix float parsing for `parseFloat` (sign, digits,
optional fraction; no exponent — no claim depends on exponents).
`none` is `NaN`. -/
def jsParseFloat (s : String) : Option Rat :=
  let cs := s.toList.dropWhile (·.isWhitespace)
  let sign : Rat := if cs.headD ' ' = '-' then -1 else 1
  let cs := match cs with
    | '-' :: t => t
    | '+' :: t => t
    | l => l
  let intPart := cs.takeWhile Char.isDigit
  let rest := cs.drop intPart.length
  let fracPart := match rest with
    | '.' :: t => t.takeWhile Char.isDigit
    | _ => []
  if intPart = [] ∧ fracPart = [] then none
  else
    let intVal : Nat := intPart.foldl (fun acc c => 10 * acc + c.toNat - '0'.toNat) 0
    let fracVal : Rat :=
      (fracPart.foldl (fun acc c => 10 * acc + c.toNat - '0'.toNat) 0 : Nat) /
        ((10 : Rat) ^ fracPart.length)
    some (sign * ((intVal : Rat) + fracVal))

/-- The iteration count of `for (let i = 0; i < count; i++)` for a JS
`count` value (numeric coercion; non-numeric counts never iterate). -/
def jsLoopCount : JVal → Nat
  | .num n => if n ≤ 0 then 0 else n.ceil.toNat
  | .str s =>
      match jsParseFloat s with
      | some n => if n ≤ 0 then 0 else n.ceil.toNat
      | none => 0
  | .bool b => if b then 1 else 0
  | _ => 0

/-- The global scan of `/\{\{([^}]+)\}\}/g`: every match is
`(fullMatch, innerGroup)`; a failed attempt restarts one character
later. -/
def scanPlaceholders : List Char → List (String × String)
  | [] => []
  | '{' :: '{' :: rest =>
      let inner := rest.takeWhile (· ≠ '}')
      if h : inner = [] then scanPlaceholders ('{' :: rest)
      else
        match h2 : rest.drop inner.length with
        | '}' :: '}' :: rest2 =>
            (String.mk ('{' :: '{' :: (inner ++ '}' :: '}' :: [])), String.mk inner) ::
              scanPlaceholders rest2
        | _ => scanPlaceholders ('{' :: rest)
  | _ :: rest => scanPlaceholders rest
termination_by cs => cs.length
decreasing_by
  all_goals simp
  · have hlen : (rest.drop inner.length).length = rest.length - inner.length :=
      List.length_drop inner.length rest
    rw [h2] at hlen
    simp at hlen
    omega

/-- JS `String.prototype.replace` with a string pattern: first
occurrence only (`$`-escapes in the replacement are not modelled; no
claim depends on them). -/
def replaceFirst (s pat repl : String) : String :=
  match s.splitOn pat with
  | [] => s
  | [_] => s
  | p :: ps => p ++ repl ++ String.intercalate pat ps

/-- The multi-placeholder interpolation loop of
`processTemplateString`. -/
def interpolateGo (data : JVal) (opts : GenProcOptions) (acc : String) :
    List (String × String) → Except JsonGeneratorError String
  | [] => .ok acc
  | (fullMatch, inner) :: rest =>
      let value := getValue data inner.trim
      if value = .undef then
        if opts.strict then
          .error { message := "Missing data for path: " ++ inner, template := some (.str acc),
                   data := some data }
        else interpolateGo data opts (replaceFirst acc fullMatch (jsToString opts.defaultValue)) rest
      else interpolateGo data opts (replaceFirst acc fullMatch (jsToString value)) rest

/-- `processTemplateString` (json.generator.ts 333–390): a whole-string
single placeholder resolves to the raw typed value (strict mode throws
on a missing path, otherwise the default applies); several or partial
placeholders interpolate as strings. -/
def processTemplateString (template : String) (data : JVal) (opts : GenProcOptions) :
    Except JsonGeneratorError JVal :=
  let ms := scanPlaceholders template.toList
  match ms with
  | [] => .ok (.str template)
  | [(fullMatch, inner)] =>
      if fullMatch = template then
        let path := inner.trim
        let value := getValue data path
        if value = .undef then
          if opts.strict then
            .error { message := "Missing data for path: " ++ path,
                     template := some (.str template), data := some data }
          else .ok opts.defaultValue
        else .ok value
      else
        (interpolateGo data opts template [(fullMatch, inner)]).map .str
  | _ => (interpolateGo data opts template ms).map .str

/-- `evaluateCondition` (json.generator.ts 511–535): string conditions
go through the host `eval` (failures there return false); anything else is
its truthiness.  Function-valued conditions cannot occur in a JSON
template value. -/
def evaluateCondition (env : GenEnv) (condition : JVal) (data : JVal) : Bool :=
  match condition with
  | .str s => env.evalCondStr s data
  | c => jsTruthy c

/-- `checkConstraint(value, constraint)` (json.validator.ts
1984–2010) restricted to JSON constraint values: `null`/`undefined`
always pass, arrays are membership, objects carry `min`/`max`/`pattern`
bounds (numeric comparisons are modelled for numeric values; the
pattern test is the host RegExp), anything else is strict equality.
Function- and `RegExp`-valued constraints cannot occur in a JSON
value. -/
def checkConstraint (venv : ValidateEnv) (value constraint : JVal) : Bool :=
  match constraint with
  | .null => true
  | .undef => true
  | .arr l => l.any fun e => jsStrictEq e value
  | .obj o =>
      let minOk := match getField o "min", value with
        | some (.num m), .num v => ¬ (v < m)
        | _, _ => true
      let maxOk := match getField o "max", value with
        | some (.num m), .num v => ¬ (v > m)
        | _, _ => true
      let patOk := match getField o "pattern" with
        | some (.str p) => venv.regexTest p (jsToString value)
        | some _ => true
        | none => true
      minOk && maxOk && patOk
  | c => jsStrictEq value c

/-- The options record of `validateJson` (json.validator.ts
1216–1224). -/
structure VJOptions where
  schema : Option JsonSchema := none
  requiredFields : Option (List String) := none
  allowedFields : Option (List String) := none
  typeConstraints : Option (List (String × String)) := none
  valueConstraints : Option (List (String × JVal)) := none

/-- `validateJson(json, options)` (json.validator.ts 1216–1310):
schema validation plus flat required/allowed/type/value field checks
for plain objects. -/
def validateJson (venv : ValidateEnv) (json : JVal) (options : VJOptions) : ValidationResult :=
  let schemaErrs := match options.schema with
    | some sch => validateAgainstSchema venv json sch ""
    | none => []
  let objFields : Option (List (String × JVal)) := match json with
    | .obj f => some f
    | _ => none
  let requiredErrs := match options.requiredFields, objFields with
    | some fields, some f =>
        fields.filterMap fun field =>
          if getField f field = none then
            some { path := field, message := "Required field \"" ++ field ++ "\" is missing",
                   expected := some (.s "present") : ValidationError }
          else none
    | _, _ => []
  let allowedErrs := match options.allowedFields, objFields with
    | some allowed, some f =>
        f.filterMap fun kv =>
          if kv.1 ∈ allowed then none
          else some { path := kv.1, message := "Field \"" ++ kv.1 ++ "\" is not allowed",
                      value := kv.2, expected := some (.s "undefined") : ValidationError }
    | _, _ => []
  let typeErrs := match options.typeConstraints, objFields with
    | some tcs, some f =>
        tcs.filterMap fun tc =>
          match getField f tc.1 with
          | some v =>
              let actualType := getValueType v
              if actualType ≠ tc.2 then
                some { path := tc.1,
                       message := "Field \"" ++ tc.1 ++ "\" has type \"" ++ actualType ++
                         "\", expected \"" ++ tc.2 ++ "\"",
                       value := v, expected := some (.s tc.2) : ValidationError }
              else none
          | none => none
    | _, _ => []
  let valueErrs := match options.valueConstraints, objFields with
    | some vcs, some f =>
        vcs.filterMap fun vc =>
          match getField f vc.1 with
          | some v =>
              if ¬ checkConstraint venv v vc.2 then
                some { path := vc.1,
                       message := "Field \"" ++ vc.1 ++ "\" value \"" ++ jsToString v ++
                         "\" does not meet constraint",
                       value := v, expected := some (.v vc.2) : ValidationError }
              else none
          | none => none
    | _, _ => []
  let errors := schemaErrs ++ requiredErrs ++ allowedErrs ++ typeErrs ++ valueErrs
  { valid := errors.isEmpty, errors := errors }

/-- Property read on an arbitrary value (`undefined` off objects). -/
def jsGetVal (v : JVal) (k : String) : JVal :=
  match v with
  | .obj f => jsGetFieldD f k
  | _ => .undef

theorem jsGetVal_le (v : JVal) (k : String) : sizeOf (jsGetVal v k) ≤ sizeOf v := by
  cases v with
  | obj f =>
      have h := jsGetFieldD_le f k
      simp only [jsGetVal]
      simp only [JVal.obj.sizeOf_spec]
      omega
  | null => simp [jsGetVal]
  | undef => simp [jsGetVal]
  | bool b => simp [jsGetVal]
  | num n => simp [jsGetVal]
  | str s => simp [jsGetVal]
  | arr l => simp [jsGetVal]

theorem sizeOf_jsGetVal_cons (c : JVal) (r : List JVal) (k : String) :
    2 * sizeOf (jsGetVal c k) < 2 * sizeOf (c :: r) + 1 := by
  have h := jsGetVal_le c k
  simp
  omega

theorem sizeOf_jsGetFieldD_lt (f : List (String × JVal)) (k : String) :
    2 * sizeOf (jsGetFieldD f k) < 2 * (1 + sizeOf f) := by
  have h := jsGetFieldD_le f k
  omega

theorem sizeOf_jsGetFieldD_lt1 (f : List (String × JVal)) (k : String) :
    2 * sizeOf (jsGetFieldD f k) + 1 < 2 * (1 + sizeOf f) := by
  have h := jsGetFieldD_le f k
  omega

theorem sizeOf_jsGetFieldD_arr (f : List (String × JVal)) (k : String) (l : List JVal)
    (h : jsGetFieldD f k = .arr l) : sizeOf l < sizeOf f := by
  have h1 := jsGetFieldD_le f k
  rw [h] at h1
  simp at h1
  omega

/-- The `ref` branch of `processTemplateDirective` (json.generator.ts
397–418): resolves `$path` against the data context, falling back to
`$default` or the configured default when strict mode is off. -/
def ptdRef (fields : List (String × JVal)) (data : JVal) (opts : GenProcOptions) :
    Except JsonGeneratorError JVal :=
  let path := jsGetFieldD fields "$path"
  if ¬ jsTruthy path then
    .error { message := "Missing $path in $type:ref directive", template := some (.obj fields) }
  else
    -- a non-string truthy path parses to no segments, resolving to `data`
    let value := match path with
      | .str s => getValue data s
      | _ => data
    if value = .undef then
      if opts.strict then
        .error { message := "Missing data for path: " ++ jsToString path,
                 template := some (.obj fields), data := some data }
      else
        .ok (match jsGetFieldD fields "$default" with
          | .undef => opts.defaultValue
          | d => d)
    else .ok value

mutual

/-- `processTemplate` (json.generator.ts 296–331): placeholder
resolution for strings, member-wise recursion for arrays and plain
objects, directive dispatch for objects with a truthy `$type`,
primitives verbatim. -/
def processTemplate (env : GenEnv) (template : JVal) (data : JVal) (opts : GenProcOptions) :
    Except JsonGeneratorError JVal :=
  match template with
  | .str s => processTemplateString s data opts
  | .arr items => (processArrayItems env items data opts).map .arr
  | .obj fields =>
      if jsTruthy (jsGetFieldD fields "$type") then
        processTemplateDirective env fields data opts
      else (processObjFields env fields data opts).map .obj
  | prim => .ok prim
termination_by (2 * sizeOf template, 1, 0)
decreasing_by
  all_goals simp_wf
  all_goals
    first
      | (apply Prod.Lex.left; omega)
      | (apply Prod.Lex.right; apply Prod.Lex.left; omega)

/-- The element loop of the array branch of `processTemplate`. -/
def processArrayItems (env : GenEnv) (items : List JVal) (data : JVal) (opts : GenProcOptions) :
    Except JsonGeneratorError (List JVal) :=
  match items with
  | [] => .ok []
  | x :: rest =>
      match processTemplate env x data opts with
      | .error e => .error e
      | .ok v =>
          match processArrayItems env rest data opts with
          | .error e => .error e
          | .ok vs => .ok (v :: vs)
termination_by (2 * sizeOf items + 1, 0, 0)
decreasing_by
  all_goals simp_wf
  all_goals (apply Prod.Lex.left; omega)

/-- The member loop of the plain-object branch of `processTemplate`. -/
def processObjFields (env : GenEnv) (fields : List (String × JVal)) (data : JVal)
    (opts : GenProcOptions) : Except JsonGeneratorError (List (String × JVal)) :=
  match fields with
  | [] => .ok []
  | (k, v) :: rest =>
      match processTemplate env v data opts with
      | .error e => .error e
      | .ok v' =>
          match processObjFields env rest data opts with
          | .error e => .error e
          | .ok vs => .ok ((k, v') :: vs)
termination_by (2 * sizeOf fields + 1, 0, 0)
decreasing_by
  all_goals simp_wf
  all_goals (apply Prod.Lex.left; omega)

/-- The `array` branch of `processTemplateDirective` (json.generator.ts
420–441). -/
def ptdArray (env : GenEnv) (fields : List (String × JVal)) (data : JVal)
    (opts : GenProcOptions) : Except JsonGeneratorError JVal :=
  let items := jsGetFieldD fields "$items"
  let count := jsGetFieldD fields "$count"
  if jsTruthy items ∧ jsTruthy count then
    let dataFields : List (String × JVal) := match data with
      | .obj f => f
      | _ => []
    (processArrayCountGo env items count dataFields opts (jsLoopCount count) 0).map .arr
  else if jsTruthy items then processTemplate env items data opts
  else .ok (.arr [])
termination_by (2 * (1 + sizeOf fields), 0, 0)
decreasing_by
  all_goals simp_wf
  all_goals
    first
      | (apply Prod.Lex.left; exact sizeOf_jsGetFieldD_lt fields _)
      | (apply Prod.Lex.left; exact sizeOf_jsGetFieldD_lt1 fields _)
      | (apply Prod.Lex.left; omega)

/-- The `object` branch of `processTemplateDirective` (json.generator.ts
443–448). -/
def ptdObject (env : GenEnv) (fields : List (String × JVal)) (data : JVal)
    (opts : GenProcOptions) : Except JsonGeneratorError JVal :=
  let properties := jsGetFieldD fields "$properties"
  match properties with
  | .obj _ => processTemplate env properties data opts
  | .arr _ => processTemplate env properties data opts
  | _ => .ok (.obj [])
termination_by (2 * (1 + sizeOf fields), 0, 0)
decreasing_by
  all_goals simp_wf
  all_goals (apply Prod.Lex.left; exact sizeOf_jsGetFieldD_lt fields _)

/-- The `switch` branch of `processTemplateDirective` (json.generator.ts
450–465). -/
def ptdSwitch (env : GenEnv) (fields : List (String × JVal)) (data : JVal)
    (opts : GenProcOptions) : Except JsonGeneratorError JVal :=
  let cases := jsGetFieldD fields "$cases"
  let defaultCase := jsGetFieldD fields "$default"
  let loopRes : Except JsonGeneratorError (Option JVal) :=
    match hc : cases with
    | .arr items => processSwitchCases env items data opts
    | _ => .ok none
  match loopRes with
  | .error e => .error e
  | .ok (some v) => .ok v
  | .ok none =>
      if defaultCase ≠ .undef then processTemplate env defaultCase data opts
      else .ok opts.defaultValue
termination_by (2 * (1 + sizeOf fields), 0, 0)
decreasing_by
  all_goals simp_wf
  all_goals
    first
      | (apply Prod.Lex.left; exact sizeOf_jsGetFieldD_lt fields _)
      | (apply Prod.Lex.left
         have h1 := sizeOf_jsGetFieldD_arr fields _ _ hc
         omega)

/-- The `concat` branch of `processTemplateDirective` (json.generator.ts
469–478). -/
def ptdConcat (env : GenEnv) (fields : List (String × JVal)) (data : JVal)
    (opts : GenProcOptions) : Except JsonGeneratorError JVal :=
  let parts := jsGetFieldD fields "$parts"
  match hp : parts with
  | .arr l =>
      match processConcatParts env l data opts with
      | .error e => .error e
      | .ok strs =>
          let sepVal := jsGetFieldD fields "$separator"
          let sep := if jsTruthy sepVal then jsToString sepVal else ""
          .ok (.str (String.intercalate sep strs))
  | _ => .ok (.str "")
termination_by (2 * (1 + sizeOf fields), 0, 0)
decreasing_by
  all_goals simp_wf
  all_goals
    (apply Prod.Lex.left
     have h1 := sizeOf_jsGetFieldD_arr fields _ _ hp
     omega)

/-- `processTemplateDirective` (json.generator.ts 392–509): the
`$type` switch.  The dispatched tags are `ref`, `array`, `object`,
`switch`, `transform`, `concat`, `math`, `date`, `random`; every other
tag — including `literal` — falls to the default branch, which throws
`Unknown template directive`.  The `transform` case requires a
function-valued `$transform`, impossible in a JSON value, and so
always yields the configured default. -/
def processTemplateDirective (env : GenEnv) (fields : List (String × JVal)) (data : JVal)
    (opts : GenProcOptions) : Except JsonGeneratorError JVal :=
  let ty := jsGetFieldD fields "$type"
  if ty = .str "ref" then ptdRef fields data opts
  else if ty = .str "array" then ptdArray env fields data opts
  else if ty = .str "object" then ptdObject env fields data opts
  else if ty = .str "switch" then ptdSwitch env fields data opts
  else if ty = .str "transform" then
    -- `typeof transform === 'function'` never holds for a JSON value
    .ok opts.defaultValue
  else if ty = .str "concat" then ptdConcat env fields data opts
  else if ty = .str "math" then
    (evaluateMathOperation env fields data opts).map .num
  else if ty = .str "date" then .ok (.str (env.genDate (.obj fields)))
  else if ty = .str "random" then .ok (env.genRandom (.obj fields))
  else
    .error { message := "Unknown template directive: " ++ jsToString ty,
             template := some (.obj fields) }
termination_by (2 * (1 + sizeOf fields), 0, 1)
decreasing_by
  all_goals simp_wf
  all_goals
    first
      | (apply Prod.Lex.right; apply Prod.Lex.right; omega)
      | (apply Prod.Lex.left; omega)

/-- The count loop of the `array` directive: each iteration processes
`$items` against a per-iteration data context carrying `$index` and
`$count`. -/
def processArrayCountGo (env : GenEnv) (items countVal : JVal)
    (dataFields : List (String × JVal)) (opts : GenProcOptions) :
    Nat → Nat → Except JsonGeneratorError (List JVal)
  | 0, _ => .ok []
  | r + 1, i =>
      let itemData := JVal.obj (setField (setField dataFields "$index" (.num i)) "$count" countVal)
      match processTemplate env items itemData opts with
      | .error e => .error e
      | .ok v =>
          match processArrayCountGo env items countVal dataFields opts r (i + 1) with
          | .error e => .error e
          | .ok vs => .ok (v :: vs)
termination_by r _ => (2 * sizeOf items + 1, 1, r)
decreasing_by
  all_goals simp_wf
  all_goals
    first
      | (apply Prod.Lex.left; omega)
      | (apply Prod.Lex.right; apply Prod.Lex.right; omega)

/-- The case loop of the `switch` directive: the first truthy
`$condition` selects its processed `$value`. -/
def processSwitchCases (env : GenEnv) (items : List JVal) (data : JVal) (opts : GenProcOptions) :
    Except JsonGeneratorError (Option JVal) :=
  match items with
  | [] => .ok none
  | caseItem :: rest =>
      let condition := jsGetVal caseItem "$condition"
      let value := jsGetVal caseItem "$value"
      if evaluateCondition env condition data then
        (processTemplate env value data opts).map some
      else processSwitchCases env rest data opts
termination_by (2 * sizeOf items + 1, 1, 0)
decreasing_by
  all_goals simp_wf
  all_goals
    first
      | (apply Prod.Lex.left; exact sizeOf_jsGetVal_cons _ _ _)
      | (apply Prod.Lex.left; omega)

/-- The part loop of the `concat` directive: each processed part is
coerced with `String(...)`. -/
def processConcatParts (env : GenEnv) (parts : List JVal) (data : JVal) (opts : GenProcOptions) :
    Except JsonGeneratorError (List String) :=
  match parts with
  | [] => .ok []
  | p :: rest =>
      match processTemplate env p data opts with
      | .error e => .error e
      | .ok v =>
          match processConcatParts env rest data opts with
          | .error e => .error e
          | .ok vs => .ok (jsToString v :: vs)
termination_by (2 * sizeOf parts + 1, 1, 0)
decreasing_by
  all_goals simp_wf
  all_goals (apply Prod.Lex.left; omega)

/-- `evaluateMathOperation` (json.generator.ts 537–577): operands are
processed templates coerced to numbers (`parseFloat(...) || 0`);
`add`/`multiply` fold, the binary-ish operations consume the remaining
operands as a sum/product; unknown operations throw.  (`divide` by a
zero product and `modulo` by zero yield JS `Infinity`/`NaN`, which the
rational model totalises; no claim exercises them.) -/
def evaluateMathOperation (env : GenEnv) (fields : List (String × JVal)) (data : JVal)
    (opts : GenProcOptions) : Except JsonGeneratorError Rat :=
  let op := jsGetFieldD fields "$operands"
  let opsE : Except JsonGeneratorError (List Rat) :=
    match ho : op with
    | .arr l => mathOperandsGo env l data opts
    | _ => .ok []
  match opsE with
  | .error e => .error e
  | .ok ops =>
      let operation := jsGetFieldD fields "$operation"
      if operation = .str "add" then .ok (ops.foldl (· + ·) 0)
      else if operation = .str "subtract" then
        .ok (match ops with
          | o :: r1 :: rest => o - ((r1 :: rest).foldl (· + ·) 0)
          | _ => ops.headD 0)
      else if operation = .str "multiply" then .ok (ops.foldl (· * ·) 1)
      else if operation = .str "divide" then
        .ok (match ops with
          | o :: r1 :: rest => o / ((r1 :: rest).foldl (· * ·) 1)
          | _ => ops.headD 0)
      else if operation = .str "modulo" then
        .ok (match ops with
          | o :: r1 :: _ => jsMod o r1
          | _ => ops.headD 0)
      else if operation = .str "power" then
        .ok (match ops with
          | o :: r1 :: _ => env.hostPow o r1
          | _ => ops.headD 0)
      else
        .error { message := "Unknown math operation: " ++ jsToString operation,
                 template := some (.obj fields) }
termination_by (2 * sizeOf fields + 1, 0, 0)
decreasing_by
  all_goals simp_wf
  all_goals
    (apply Prod.Lex.left
     have h1 : sizeOf l < sizeOf fields := sizeOf_jsGetFieldD_arr fields _ _ ho
     omega)

/-- The operand loop of the `math` directive. -/
def mathOperandsGo (env : GenEnv) (operands : List JVal) (data : JVal) (opts : GenProcOptions) :
    Except JsonGeneratorError (List Rat) :=
  match operands with
  | [] => .ok []
  | o :: rest =>
      match processTemplate env o data opts with
      | .error e => .error e
      | .ok v =>
          let n : Rat := match v with
            | .num x => x
            | other => (jsParseFloat (jsToString other)).getD 0
          match mathOperandsGo env rest data opts with
          | .error e => .error e
          | .ok ns => .ok (n :: ns)
termination_by (2 * sizeOf operands + 1, 1, 0)
decreasing_by
  all_goals simp_wf
  all_goals (apply Prod.Lex.left; omega)

end

/-- `JsonGeneratorOptions` with the source's destructuring defaults.
`validationSchema` is passed to `validateJson` in the position of its
options record, so its members are read as `validateJson` options. -/
structure JsonGeneratorOptions where
  strict : Bool := false
  defaultValue : JVal := .null
  validate : Bool := false
  validationSchema : Option VJOptions := none
  onError : String := "throw"

/-- `generateJson(template, data, options)` (json.generator.ts
20–75): clones the template, processes it when a data context is
supplied, optionally validates the result, and converts any thrown
error per `onError` (`throw` rethrows — every modelled throw is already
a `JsonGeneratorError` —, `default` yields the configured default,
`ignore` the original unprocessed template). -/
def generateJson (env : GenEnv) (venv : ValidateEnv) (template : JVal) (data : Option JVal)
    (options : JsonGeneratorOptions := {}) : Except JsonGeneratorError JVal :=
  let attempt : Except JsonGeneratorError JVal :=
    match data with
    | some d =>
        processTemplate env (deepCloneTemplate template) d
          { strict := options.strict, defaultValue := options.defaultValue }
    | none => .ok (deepCloneTemplate template)
  let checked : Except JsonGeneratorError JVal :=
    match attempt with
    | .error e => .error e
    | .ok result =>
        if options.validate then
          let vr := validateJson venv result (options.validationSchema.getD {})
          if ¬ vr.valid ∧ options.strict then
            .error { message := "Generated JSON failed validation", template := some template,
                     data := data }
          else .ok result
        else .ok result
  match checked with
  | .ok r => .ok r
  | .error e =>
      if options.onError = "throw" then .error e
      else if options.onError = "default" then .ok options.defaultValue
      else .ok template

/-! ## Claim-specific definitions -/

/-- A primitive (non-container) runtime value. -/
def isPrimitiveJV : JVal → Bool
  | .arr _ => false
  | .obj _ => false
  | _ => true

/-- The schema of spec scenario 5:
`{type:'object', required:['name'], properties:{name:{type:'string'}}}`. -/
def scenarioFiveSchema : JsonSchema :=
  .mk { type := some (.one "object"), required := some ["name"],
        properties := some [("name", .mk { type := some (.one "string") })] }

/-- Path segments admissible for the provable round-trip: string keys
other than `'0'` (numeric segments and the key `'0'` steer
`createDefaultValue` towards arrays, where create-mode writes break). -/
def allKeySafe (segs : List PathSeg) : Bool :=
  segs.all fun s =>
    match s with
    | .key k => k ≠ "0"
    | .idx _ => false

/-- The existing structure along a path admits a create-mode write:
every present intermediate value is an object (missing links and
`null`/`undefined` links are fine — create mode materialises objects
there). -/
def walkOkB : JVal → List PathSeg → Bool
  | _, [] => true
  | cur, .key k :: rest =>
      match cur with
      | .obj fields => walkOkB (jsGetFieldD fields k) rest
      | .null => true
      | .undef => true
      | _ => false
  | _, .idx _ :: _ => false

/-! ## Helper lemmas for the claim theorems -/

theorem processTemplateDirective_literal (env : GenEnv) (v data : JVal)
    (opts : GenProcOptions) :
    processTemplateDirective env [("$type", .str "literal"), ("$value", v)] data opts =
      .error { message := "Unknown template directive: literal",
               template := some (.obj [("$type", .str "literal"), ("$value", v)]) } := by
  rw [processTemplateDirective]
  simp [jsGetFieldD, getField, jsToString]

theorem processTemplate_literal (env : GenEnv) (v data : JVal) (opts : GenProcOptions) :
    processTemplate env (.obj [("$type", .str "literal"), ("$value", v)]) data opts =
      .error { message := "Unknown template directive: literal",
               template := some (.obj [("$type", .str "literal"), ("$value", v)]) } := by
  rw [processTemplate]
  simp [jsGetFieldD, getField, jsTruthy, processTemplateDirective_literal]

theorem walkOkB_undef (rest : List PathSeg) (h : allKeySafe rest = true) :
    walkOkB .undef rest = true := by
  cases rest with
  | nil => rfl
  | cons a t =>
      cases a with
      | key k => rfl
      | idx n => simp [allKeySafe] at h

theorem evalSegs_read_newCur (opts : JsonPathOptions) (expr : String)
    (hc : opts.create = false) (hd : opts.delete = false) (hv : opts.value = none) :
    ∀ (rest done : List PathSeg) (cur : JVal) (seg : PathSeg) (out : EvalOut),
      evalSegs opts expr done cur seg rest = .ok out → out.newCur = cur := by
  intro rest
  induction rest with
  | nil =>
      intro done cur seg out h
      rw [evalSegs] at h
      simp only [hc, hd, hv, Bool.false_eq_true, if_false] at h
      cases cur <;> cases seg <;> simp_all [arrTerminal, objTerminal]
      all_goals try (subst h; rfl)
      split at h
      · simp at h
      · rename_i xs2 child2 pos2 heq
        split at heq <;> (try split at heq) <;> simp_all
        all_goals try (subst h; rfl)
  | cons s' rr ih =>
      intro done cur seg out h
      rw [evalSegs] at h
      simp only [hc, hd, hv, Bool.false_eq_true, if_false] at h
      cases cur <;> cases seg <;> simp_all [arrTerminal, objTerminal]
      all_goals try (subst h; rfl)
      -- cons.arr.idx
      · rename_i elems n
        split at h
        · simp at h
        · rename_i xs' child posOpt heq
          split at heq <;> (try split at heq) <;> simp_all
          all_goals
            (obtain ⟨he1, he2, he3⟩ := heq
             subst he1
             subst he3
             subst he2
             simp only [Except.ok.injEq] at h
             split at h
             · simp at h
             · rename_i out1 hrec
               have hih := ih _ _ _ _ hrec
               simp only [Except.ok.injEq] at h
               subst h
               rw [hih]
               exact congrArg JVal.arr (list_set_getElem_self _ _ (by omega)))
      -- cons.obj.key
      · rename_i fields k
        by_cases hpres : getField fields k = none
        · simp only [hpres] at h
          simp at h
          subst h
          rfl
        · obtain ⟨w, hw⟩ := Option.ne_none_iff_exists'.mp hpres
          rw [if_neg hpres] at h
          simp only [hw, Option.getD_some] at h
          split at h
          · simp at h
          · rename_i out1 hrec
            have hih := ih _ _ _ _ hrec
            simp only [Except.ok.injEq] at h
            subst h
            rw [hih]
            rw [setField_getField_self fields k w hw]

theorem evalSegs_set_get (v : JVal) (hv : v ≠ .undef) (expr expr2 : String) :
    ∀ (rest done done2 : List PathSeg) (cur : JVal) (seg : PathSeg),
      allKeySafe (seg :: rest) = true → walkOkB cur (seg :: rest) = true →
      ∃ out : EvalOut,
        evalSegs { create := true, value := some v } expr done cur seg rest = .ok out ∧
        out.«exists» = true ∧
        ∃ out2 : EvalOut,
          evalSegs {} expr2 done2 out.newCur seg rest = .ok out2 ∧ out2.value = v := by
  intro rest
  induction rest with
  | nil =>
      intro done done2 cur seg hsafe hwalk
      cases seg with
      | idx n => simp [allKeySafe] at hsafe
      | key k =>
          cases cur with
          | obj fields =>
              by_cases hpres : getField fields k = none
              · have hset : evalSegs { create := true, value := some v } expr done
                    (.obj fields) (.key k) [] =
                    .ok { newCur := .obj (setField (setField fields k .undef) k v), value := v,
                          parent := some (.obj (setField (setField fields k .undef) k v)),
                          key := .key k, «exists» := true } := by
                  rw [evalSegs]
                  simp [hpres, objTerminal, getField_setField]
                have hread : evalSegs {} expr2 done2
                    (.obj (setField (setField fields k .undef) k v)) (.key k) [] =
                    .ok { newCur := .obj (setField (setField fields k .undef) k v), value := v,
                          parent := some (.obj (setField (setField fields k .undef) k v)),
                          key := .key k, «exists» := true } := by
                  rw [evalSegs]
                  simp [objTerminal, getField_setField]
                exact ⟨_, hset, rfl, _, hread, rfl⟩
              · obtain ⟨w, hw⟩ := Option.ne_none_iff_exists'.mp hpres
                have hset : evalSegs { create := true, value := some v } expr done
                    (.obj fields) (.key k) [] =
                    .ok { newCur := .obj (setField fields k v), value := v,
                          parent := some (.obj (setField fields k v)),
                          key := .key k, «exists» := true } := by
                  rw [evalSegs]
                  simp [hw, objTerminal]
                have hread : evalSegs {} expr2 done2
                    (.obj (setField fields k v)) (.key k) [] =
                    .ok { newCur := .obj (setField fields k v), value := v,
                          parent := some (.obj (setField fields k v)),
                          key := .key k, «exists» := true } := by
                  rw [evalSegs]
                  simp [objTerminal, getField_setField]
                exact ⟨_, hset, rfl, _, hread, rfl⟩
          | null =>
              have hset : evalSegs { create := true, value := some v } expr done
                  .null (.key k) [] =
                  .ok { newCur := .obj [(k, v)], value := v,
                        parent := some (.obj [(k, v)]), key := .key k, «exists» := true } := by
                rw [evalSegs]
                simp [createDefaultValue, objTerminal, setField, getField]
              have hread : evalSegs {} expr2 done2 (.obj [(k, v)]) (.key k) [] =
                  .ok { newCur := .obj [(k, v)], value := v,
                        parent := some (.obj [(k, v)]), key := .key k, «exists» := true } := by
                rw [evalSegs]
                simp [objTerminal, getField]
              exact ⟨_, hset, rfl, _, hread, rfl⟩
          | undef =>
              have hset : evalSegs { create := true, value := some v } expr done
                  .undef (.key k) [] =
                  .ok { newCur := .obj [(k, v)], value := v,
                        parent := some (.obj [(k, v)]), key := .key k, «exists» := true } := by
                rw [evalSegs]
                simp [createDefaultValue, objTerminal, setField, getField]
              have hread : evalSegs {} expr2 done2 (.obj [(k, v)]) (.key k) [] =
                  .ok { newCur := .obj [(k, v)], value := v,
                        parent := some (.obj [(k, v)]), key := .key k, «exists» := true } := by
                rw [evalSegs]
                simp [objTerminal, getField]
              exact ⟨_, hset, rfl, _, hread, rfl⟩
          | bool b => simp [walkOkB] at hwalk
          | num n => simp [walkOkB] at hwalk
          | str s => simp [walkOkB] at hwalk
          | arr xs => simp [walkOkB] at hwalk
  | cons s' rr ih =>
      intro done done2 cur seg hsafe hwalk
      cases seg with
      | idx n => simp [allKeySafe] at hsafe
      | key k =>
          have hsafe' : allKeySafe (s' :: rr) = true := by
            simp [allKeySafe] at hsafe ⊢
            exact hsafe.2
          have hrr : allKeySafe rr = true := by
            simp [allKeySafe] at hsafe' ⊢
            exact hsafe'.2
          obtain ⟨k', hs', hk'⟩ : ∃ k', s' = .key k' ∧ ¬(k' = "0") := by
            cases s' with
            | key k2 =>
                refine ⟨k2, rfl, ?_⟩
                simp [allKeySafe] at hsafe'
                exact hsafe'.1
            | idx n => simp [allKeySafe] at hsafe'
          have hcdv : createDefaultValue s' rr.head? = .obj [] := by
            cases rr with
            | nil => subst hs'; simp [createDefaultValue]
            | cons x t =>
                cases x with
                | key k2 =>
                    have h2 : ¬(k2 = "0") := by
                      simp [allKeySafe] at hrr
                      exact hrr.1
                    simp [createDefaultValue, h2]
                | idx m => simp [allKeySafe] at hrr
          have hwOk : walkOkB (.obj []) (s' :: rr) = true := by
            subst hs'
            simp [walkOkB, jsGetFieldD, getField]
            exact walkOkB_undef rr hrr
          cases cur with
          | obj fields =>
              by_cases hpres : getField fields k = none
              · obtain ⟨out1, hset1, hex1, out21, hread1, hval1⟩ :=
                  ih (done ++ [.key k]) (done2 ++ [.key k]) (.obj []) s' hsafe' hwOk
                have hset : evalSegs { create := true, value := some v } expr done
                    (.obj fields) (.key k) (s' :: rr) =
                    .ok { out1 with
                          newCur := .obj (setField (setField fields k (.obj [])) k
                            out1.newCur) } := by
                  rw [evalSegs]
                  simp [hpres, hcdv, getField_setField, hset1]
                have hread : evalSegs {} expr2 done2
                    (.obj (setField (setField fields k (.obj [])) k out1.newCur))
                    (.key k) (s' :: rr) =
                    .ok { out21 with
                          newCur := .obj (setField
                            (setField (setField fields k (.obj [])) k out1.newCur) k
                            out21.newCur) } := by
                  rw [evalSegs]
                  simp [getField_setField, hread1]
                exact ⟨_, hset, by simp [hex1], _, hread, by simp [hval1]⟩
              · obtain ⟨w, hw⟩ := Option.ne_none_iff_exists'.mp hpres
                have hwalk' : walkOkB w (s' :: rr) = true := by
                  simpa [walkOkB, jsGetFieldD, hw] using hwalk
                obtain ⟨out1, hset1, hex1, out21, hread1, hval1⟩ :=
                  ih (done ++ [.key k]) (done2 ++ [.key k]) w s' hsafe' hwalk'
                have hset : evalSegs { create := true, value := some v } expr done
                    (.obj fields) (.key k) (s' :: rr) =
                    .ok { out1 with newCur := .obj (setField fields k out1.newCur) } := by
                  rw [evalSegs]
                  simp [hw, hset1]
                have hread : evalSegs {} expr2 done2
                    (.obj (setField fields k out1.newCur)) (.key k) (s' :: rr) =
                    .ok { out21 with
                          newCur := .obj (setField (setField fields k out1.newCur) k
                            out21.newCur) } := by
                  rw [evalSegs]
                  simp [getField_setField, hread1]
                exact ⟨_, hset, by simp [hex1], _, hread, by simp [hval1]⟩
          | null =>
              obtain ⟨out1, hset1, hex1, out21, hread1, hval1⟩ :=
                ih (done ++ [.key k]) (done2 ++ [.key k]) (.obj []) s' hsafe' hwOk
              have hset : evalSegs { create := true, value := some v } expr done
                  .null (.key k) (s' :: rr) =
                  .ok { out1 with newCur := .obj [(k, out1.newCur)] } := by
                rw [evalSegs]
                simp [hcdv, setField, getField, hset1]
              have hread : evalSegs {} expr2 done2 (.obj [(k, out1.newCur)])
                  (.key k) (s' :: rr) =
                  .ok { out21 with newCur := .obj [(k, out21.newCur)] } := by
                rw [evalSegs]
                simp [getField, setField, hread1]
              exact ⟨_, hset, by simp [hex1], _, hread, by simp [hval1]⟩
          | undef =>
              obtain ⟨out1, hset1, hex1, out21, hread1, hval1⟩ :=
                ih (done ++ [.key k]) (done2 ++ [.key k]) (.obj []) s' hsafe' hwOk
              have hset : evalSegs { create := true, value := some v } expr done
                  .undef (.key k) (s' :: rr) =
                  .ok { out1 with newCur := .obj [(k, out1.newCur)] } := by
                rw [evalSegs]
                simp [hcdv, setField, getField, hset1]
              have hread : evalSegs {} expr2 done2 (.obj [(k, out1.newCur)])
                  (.key k) (s' :: rr) =
                  .ok { out21 with newCur := .obj [(k, out21.newCur)] } := by
                rw [evalSegs]
                simp [getField, setField, hread1]
              exact ⟨_, hset, by simp [hex1], _, hread, by simp [hval1]⟩
          | bool b => simp [walkOkB] at hwalk
          | num n => simp [walkOkB] at hwalk
          | str s => simp [walkOkB] at hwalk
          | arr xs => simp [walkOkB] at hwalk

/-! ## Claim theorems -/

/-- C10: with the empty path expression, `jsonPath` returns
`{value: json, parent: null, key: '', exists: true}` for every options
record, `setValue` returns the argument unchanged and `deleteValue`
deletes nothing. -/
theorem jsonPath_empty_path_noop (json : JVal) (opts : JsonPathOptions) (v : JVal) :
    jsonPath json "" opts =
      .ok { value := json, parent := none, key := .key "", «exists» := true, target := json } ∧
    setValue json "" v = .ok json ∧
    deleteValue json "" = .ok json := by
  refine ⟨?_, ?_, ?_⟩ <;>
    simp [jsonPath, setValue, deleteValue, parsePathExpression, Except.map]

/-- C1 counterexample: on a `null` root the create-mode write succeeds
but attaches nothing (the replacement root is never linked to the
caller's value), so reading the path back yields `undefined`, not the
written value. -/
theorem setThenGet_nullRoot_cex :
    setValue .null "a" (.num 1) = .ok .null ∧
    getValue .null "a" = .undef ∧ JVal.undef ≠ .num 1 :=
  ⟨rfl, rfl, by decide⟩

/-- C2 counterexample: `jsonPath` with `options.value` writes through
the caller's argument — the post-call value of the argument (`target`)
differs from the value passed in, so the call mutates a caller-owned
input. -/
theorem setValue_mutates_target_cex :
    jsonPath (.obj [("a", .num 1)]) "a" { value := some (.num 2) } =
      .ok { value := .num 2, parent := some (.obj [("a", .num 2)]), key := .key "a",
            «exists» := true, target := .obj [("a", .num 2)] } ∧
    setValue (.obj [("a", .num 1)]) "a" (.num 2) = .ok (.obj [("a", .num 2)]) ∧
    JVal.obj [("a", .num 2)] ≠ .obj [("a", .num 1)] :=
  ⟨rfl, rfl, by decide⟩

/-- C5: `mergeWithPriority` resolves a key present in several objects
to the LAST non-null/undefined value (the `priority` conflict strategy
lets the later source win), not the first as documented: merging
`[{a:1}, {a:2}]` yields `{a:2}`. -/
theorem mergeWithPriority_last_wins :
    mergeWithPriority [.obj [("a", .num 1)], .obj [("a", .num 2)]] = .ok (.obj [("a", .num 2)]) ∧
    JVal.obj [("a", .num 2)] ≠ .obj [("a", .num 1)] := by
  constructor
  · simp [mergeWithPriority, mergePriorityFold, deepMergeRecursive, mergeFieldsRec, deepClone,
      deepCloneFields, deepCloneList, getValueType, getField, setField, conflictOnPrimitive]
  · decide

/-- C6 counterexample: validating `{}` against the scenario-5 schema
reports the missing required property at path `".name"` (leading dot),
not `"name"` as the spec promises. -/
theorem validateSchema_required_path_cex :
    (validateSchema {} (.obj []) scenarioFiveSchema).errors.map (fun e => e.path) = [".name"] ∧
    ".name" ≠ "name" := by
  constructor
  · simp [validateSchema, validateAgainstSchema, scenarioFiveSchema, validateObjectAgainstSchema,
      JsonSchema.core, schemaTypeErrs, schemaTypeGate, getValueType, getField, createError,
      validatePropsGo]
  · decide

/-- C7 counterexample: on arrays of different lengths
`compareArraysUnordered` short-circuits with a single
`length-mismatch` difference and similarity `0`; the promised
element-level matching (similarity `matches/len(a)` and per-element
differences) never runs. -/
theorem compareArraysUnordered_length_gate_cex :
    compareArraysUnordered (.arr [.num 1]) (.arr [.num 1, .num 2]) =
      .ok { equal := false,
            differences := [{ path := "", type := "length-mismatch", valueA := .num 1,
                              valueB := .num 2 }],
            similarity := 0 } ∧
    (0 : Rat) ≠ 1 / 1 := by
  exact ⟨rfl, by norm_num⟩

/-- C9: `deepMerge`, `compareJson` and `validateSchema` never mutate
their arguments.  In the embedding every engine is a pure function, so
frame-preservation is intrinsic; the theorem states the source's
mechanism: `deepClone` is the identity on values (the clones the
engines work on are structurally equal to the inputs), and each engine
is invariant under cloning its inputs. -/
theorem merge_compare_validate_pure :
    (∀ v, deepClone v = v) ∧
    (∀ t s opts, deepMerge (deepClone t) (deepClone s) opts = deepMerge t s opts) ∧
    (∀ a b, compareJson (deepClone a) (deepClone b) = compareJson a b) ∧
    (∀ env json schema, validateSchema env (deepClone json) schema = validateSchema env json schema) := by
  refine ⟨deepClone_eq, ?_, ?_, ?_⟩ <;> intros <;> simp [deepClone_eq]

/-- C1 amended: the set-then-get round-trip
`getValue(setValue(json, p, v), p) = v` holds for an object root, a
defined value `v`, and a non-empty parsed path of string keys other
than `'0'` whose existing links are objects (or missing/null).  It
fails in general: a `null`/`undefined` root is never attached (see
the counterexample), numeric segments and the key `'0'` steer
`createDefaultValue` to arrays where create-mode writes break, and a
primitive link raises `TypeError`. -/
theorem setThenGet_roundTrip_amended (fields : List (String × JVal)) (p : String) (v : JVal)
    (segs : List PathSeg) (hv : v ≠ .undef) (hp : parsePathExpression p = .ok segs)
    (hne : segs ≠ []) (hsafe : allKeySafe segs = true)
    (hwalk : walkOkB (.obj fields) segs = true) :
    ∃ t, setValue (.obj fields) p v = .ok t ∧ getValue t p = v := by
  cases segs with
  | nil => exact absurd rfl hne
  | cons s rest =>
      obtain ⟨out, hset, hex, out2, hread, hval⟩ :=
        evalSegs_set_get v hv p p rest [] [] (.obj fields) s hsafe hwalk
      have hnorm : (match some v with
        | some .undef => (none : Option JVal)
        | o => o) = some v := by
        cases v <;> simp_all
      refine ⟨out.newCur, ?_, ?_⟩
      · rw [setValue, jsonPath, hp]
        simp [hnorm, hset, hex, Except.map]
      · rw [getValue, jsonPath, hp]
        simp [hread, hval]

theorem setThenGet_roundTrip_amended_witness :
    ∃ t, setValue (.obj []) "a.b" (.num 5) = .ok t ∧ getValue t "a.b" = .num 5 :=
  setThenGet_roundTrip_amended [] "a.b" (.num 5) [.key "a", .key "b"] (by decide) rfl (by decide)
    (by decide) (by decide)

/-- C2 amended: read-mode `jsonPath` calls — no `create`, no
`delete`, no `value` — never mutate the caller's argument: the
post-call value of the argument (`target`) is the argument itself.
Mutating modes do write through the argument (see the
counterexample); merge/compare/validate purity is the C9 theorem. -/
theorem jsonPath_read_no_mutation (json : JVal) (expr : String) (opts : JsonPathOptions)
    (r : JsonPathResult) (hc : opts.create = false) (hd : opts.delete = false)
    (hv : opts.value = none) (h : jsonPath json expr opts = .ok r) :
    r.target = json := by
  rw [jsonPath] at h
  simp only [hv] at h
  split at h
  · simp at h
  · simp at h
    subst h
    rfl
  · rename_i x s rest heqp
    split at h
    · simp at h
    · rename_i out hrec
      have hread := evalSegs_read_newCur { opts with value := none } expr
        (by simp [hc]) (by simp [hd]) (by simp) rest [] json s out hrec
      rw [if_neg (by simp [hc])] at h
      simp only [Except.ok.injEq] at h
      subst h
      simp only [hread]
      split <;> simp_all

theorem jsonPath_read_no_mutation_witness :
    ({ value := .num 1, parent := some (.obj [("a", .num 1)]), key := .key "a",
       «exists» := true, target := .obj [("a", .num 1)] } : JsonPathResult).target =
      .obj [("a", .num 1)] :=
  jsonPath_read_no_mutation (.obj [("a", .num 1)]) "a" {} _ rfl rfl rfl rfl

/-- C3 (code bug): the `literal` directive is not dispatched —
`processTemplateDirective` has no `literal` case, so for every value
`v` and every data context `generateJson` on the template
`{$type:'literal', $value: v}` throws `Unknown template directive:
literal` instead of returning `v` verbatim. -/
theorem generateJson_literal_unknown_directive (env : GenEnv) (venv : ValidateEnv) (v data : JVal) :
    generateJson env venv (.obj [("$type", .str "literal"), ("$value", v)]) (some data) {} =
      .error { message := "Unknown template directive: literal",
               template := some (.obj [("$type", .str "literal"), ("$value", v)]),
               data := none } := by
  simp [generateJson, deepCloneTemplate, deepClone, deepCloneFields, deepCloneList,
    deepClone_eq, processTemplate_literal]

/-- C4: `validateSchema` is total in the embedding (it returns a
`ValidationResult` for every input, never throws).  A failing type
gate at a node yields exactly one error for that node and suppresses
every deeper check (`validateAgainstSchema` returns just the
type-mismatch singleton); and independent violations in disjoint
subtrees are all reported, not fail-fast: a two-property object whose
two properties each violate their declared type produces both errors. -/
theorem validateSchema_typeGate_and_completeness :
    (∀ (env : ValidateEnv) (json : JVal) (schema : JsonSchema) (basePath : String),
      schemaTypeErrs json schema basePath ≠ [] →
      validateAgainstSchema env json schema basePath = schemaTypeErrs json schema basePath ∧
      ∃ e, schemaTypeErrs json schema basePath = [e]) ∧
    validateSchema {} (.obj [("a", .num 1), ("b", .str "x")])
        (.mk { type := some (.one "object"),
               properties := some [("a", .mk { type := some (.one "string") }),
                                   ("b", .mk { type := some (.one "number") })] }) =
      { valid := false,
        errors := [
          { path := ".a",
            message := "Type \"number\" does not match expected type(s): string",
            value := .num 1, expected := some (.list ["string"]) },
          { path := ".b",
            message := "Type \"string\" does not match expected type(s): number",
            value := .str "x", expected := some (.list ["number"]) } ] } := by
  constructor
  · intro env json schema basePath hne
    constructor
    · cases json <;> simp [validateAgainstSchema, hne]
    · cases hg : schemaTypeGate schema with
      | none => simp [schemaTypeErrs, hg] at hne
      | some ts =>
          by_cases hcont : getValueType json ∈ ts
          · simp [schemaTypeErrs, hg, hcont] at hne
          · exact ⟨createError basePath
              ("Type \"" ++ getValueType json ++ "\" does not match expected type(s): " ++
                String.intercalate ", " ts) json (some (.list ts)), by
              simp [schemaTypeErrs, hg, hcont]⟩
  · simp [validateSchema, validateAgainstSchema, validateObjectAgainstSchema, JsonSchema.core,
      schemaTypeErrs, schemaTypeGate, getValueType, getField, createError, validatePropsGo,
      validatePrimitiveAgainstSchema]
    exact ⟨rfl, rfl⟩

theorem validateSchema_typeGate_witness :
    validateAgainstSchema {} (.num 1) scenarioFiveSchema "" =
      schemaTypeErrs (.num 1) scenarioFiveSchema "" ∧
    ∃ e, schemaTypeErrs (.num 1) scenarioFiveSchema "" = [e] :=
  validateSchema_typeGate_and_completeness.1 {} (.num 1) scenarioFiveSchema "" (by decide)

/-- C6 amended: validating `{}` against
`{type:'object', required:['name'], properties:{name:{type:'string'}}}`
yields exactly one error whose message mentions "missing", but its
path is `".name"` — `basePath ++ "." ++ prop` with an empty base —
not `"name"`: required-property paths carry a leading dot that the
Path Engine's addressing syntax does not use. -/
theorem validateSchema_required_dot_path_amended (env : ValidateEnv) :
    validateSchema env (.obj []) scenarioFiveSchema =
      { valid := false,
        errors := [{ path := ".name", message := "Required property \"name\" is missing",
                     value := .undef, expected := some (.s "present") }] } ∧
    ".name" = "." ++ "name" := by
  refine ⟨?_, rfl⟩
  simp [validateSchema, validateAgainstSchema, scenarioFiveSchema, validateObjectAgainstSchema,
    JsonSchema.core, schemaTypeErrs, schemaTypeGate, getValueType, getField, createError,
    validatePropsGo]

/-- C7 amended: `compareArraysUnordered` first gates on length — any
length mismatch returns a single `length-mismatch` difference with
similarity `0` and never matches elements; only for equal-length
arrays does the greedy bipartite matching run, reporting unmatched
elements of `a` as `missing-element` (at their index), leftover
elements of `b` as one aggregate `extra-element` difference each, with
similarity `matches / len(a)` (and `1` for two empty arrays). -/
theorem compareArraysUnordered_amended :
    (∀ as bs : List JVal, as.length ≠ bs.length →
      compareArraysUnordered (.arr as) (.arr bs) =
        .ok { equal := false,
              differences := [{ path := "", type := "length-mismatch", valueA := .num as.length,
                                valueB := .num bs.length }],
              similarity := 0 }) ∧
    compareArraysUnordered (.arr []) (.arr []) =
      .ok { equal := true, differences := [], similarity := 1 } ∧
    compareArraysUnordered (.arr [.num 1, .num 3]) (.arr [.num 3, .num 2]) =
      .ok { equal := false,
            differences := [{ path := "[0]", type := "missing-element", valueA := .num 1,
                              valueB := .undef },
                            { path := "", type := "extra-element", valueA := .undef,
                              valueB := .num 2 }],
            similarity := 1 / 2 } := by
  refine ⟨?_, rfl, ?_⟩
  · intro as bs h
    simp [compareArraysUnordered, h]
  · simp [compareArraysUnordered, unorderedGo, removeFirstMatch, deepEqualCmp, deepCompare,
      getValueType]
    all_goals first | rfl | norm_num

theorem compareArraysUnordered_amended_witness :
    ([JVal.num 1].length ≠ ([] : List JVal).length) ∧
    compareArraysUnordered (.arr [.num 1]) (.arr []) =
      .ok { equal := false,
            differences := [{ path := "", type := "length-mismatch",
                              valueA := .num ([JVal.num 1].length : Rat),
                              valueB := .num (([] : List JVal).length : Rat) }],
            similarity := 0 } :=
  ⟨by decide, compareArraysUnordered_amended.1 [.num 1] [] (by decide)⟩

/-- C8 amended: under `conflictStrategy:'throw'`,
`deepMergeRecursive` raises a `JsonMergeError` carrying the offending
path and both values on a type mismatch between two non-null values,
and on two differing equal-type primitives; in particular
`deepMerge({a:1}, {a:"x"}, {conflictStrategy:'throw'})` throws at path
`"a"`.  A `null`/`undefined` side never raises (the non-null side
wins), so not every disagreement throws — see the counterexample. -/
theorem deepMerge_throw_conflict_amended :
    (∀ (t s : JVal) (strat arrStrat path : String) (maxDepth depth : Int),
      ¬ maxDepth < depth → ¬ (s = .null ∨ s = .undef) → ¬ (t = .null ∨ t = .undef) →
      getValueType t ≠ getValueType s →
      deepMergeRecursive t s strat arrStrat "throw" none path maxDepth depth =
        .error { message := "Type mismatch at path \"" ++ path ++ "\": " ++ getValueType t ++
                   " vs " ++ getValueType s,
                 path := path, valueA := t, valueB := s }) ∧
    (∀ (t s : JVal) (strat arrStrat path : String) (maxDepth depth : Int),
      ¬ maxDepth < depth → ¬ (s = .null ∨ s = .undef) → ¬ (t = .null ∨ t = .undef) →
      getValueType t = getValueType s → isPrimitiveJV t = true → t ≠ s →
      deepMergeRecursive t s strat arrStrat "throw" none path maxDepth depth =
        .error { message := "Value conflict at path \"" ++ path ++ "\": " ++ jsToString t ++
                   " vs " ++ jsToString s,
                 path := path, valueA := t, valueB := s }) ∧
    deepMerge (.obj [("a", .num 1)]) (.obj [("a", .str "x")]) { conflictStrategy := some "throw" } =
      .error { message := "Type mismatch at path \"a\": number vs string", path := "a",
               valueA := .num 1, valueB := .str "x" } := by
  refine ⟨?_, ?_, ?_⟩
  · intro t s strat arrStrat path maxDepth depth h1 h2 h3 h4
    rw [deepMergeRecursive]
    simp [h1, h2, h3, h4, conflictOnTypeMismatch]
    all_goals (intro a b ht hs; subst ht; subst hs; simp [getValueType] at h4)
  · intro t s strat arrStrat path maxDepth depth h1 h2 h3 h4 h5 h6
    rw [deepMergeRecursive]
    cases t <;> cases s <;>
      simp_all [getValueType, isPrimitiveJV, conflictOnPrimitive]
    all_goals (intro a b ht hs; subst ht; simp [isPrimitiveJV] at h5)
  · simp [deepMerge, deepClone, deepCloneFields, deepCloneList, deepMergeRecursive,
      mergeFieldsRec, getValueType, getField, setField, conflictOnTypeMismatch]

theorem deepMerge_throw_conflict_witness :
    deepMergeRecursive (.num 1) (.str "x") "deep" "concat" "throw" none "a" 100 0 =
      .error { message := "Type mismatch at path \"" ++ "a" ++ "\": " ++ getValueType (.num 1) ++
                 " vs " ++ getValueType (.str "x"),
               path := "a", valueA := .num 1, valueB := .str "x" } ∧
    deepMergeRecursive (.num 1) (.num 2) "deep" "concat" "throw" none "a" 100 0 =
      .error { message := "Value conflict at path \"" ++ "a" ++ "\": " ++ jsToString (.num 1) ++
                 " vs " ++ jsToString (.num 2),
               path := "a", valueA := .num 1, valueB := .num 2 } :=
  ⟨deepMerge_throw_conflict_amended.1 _ _ _ _ _ _ _ (by decide) (by decide) (by decide) (by decide),
   deepMerge_throw_conflict_amended.2.1 _ _ _ _ _ _ _ (by decide) (by decide) (by decide) (by decide) (by decide) (by decide)⟩

theorem deepMerge_throw_null_source_cex :
    deepMerge (.obj [("a", .num 1)]) (.obj [("a", .null)])
        { conflictStrategy := some "throw" } =
      .ok (.obj [("a", .num 1)]) ∧ JVal.num 1 ≠ .null := by
  constructor
  · simp [deepMerge, deepClone, deepCloneFields, deepCloneList, deepMergeRecursive,
      mergeFieldsRec, getValueType, getField, setField]
  · decide
